import Mathlib

/-!
Verification development for the betterfountain-rust screenplay parser.

This file shallowly embeds the core of the repository in Lean:

* `src/src/parser/fountain_parser.rs` — the block lexer / state machine
  (`FountainParser::parse` and its helpers), including the duration
  bookkeeping, scene numbering, dual-dialogue retrofit and shot-cut logic;
* `src/src/utils/fountain_constants.rs` — the sentinel-character table
  (reproduced byte-for-byte: on disk that file is encoding-corrupted, so
  each "style char" is really a 2–4 character mojibake string, e.g.
  `note_begin` is the three characters `â`, `†`, `º` rather than `↺`);
* `src/src/parser/text_processor.rs` — `process_token_text_style_char`;
* `src/src/docx/docx_maker.rs` — the inline style re-lexer `text2`
  together with `global_stash` / `global_pop` / `reset_format`.

Embedding conventions:

* Strings are `List Char` (`Str`); byte-based `str::len` is embedded via
  UTF-8 sizes (`utf8Len`).  Rust regexes are embedded as hand-written
  matchers implementing the same (leftmost-first) language on the
  newline-free strings the parser feeds them.
* `f64` durations are embedded as unnormalised fractions (`Frac`);
  all duration arithmetic in the source is addition/multiplication or a
  final division, so exact arithmetic is faithful up to floating-point
  rounding, which no claim depends on.
* Unicode character classes (`\p{Lu}`, `\p{Ll}`, `\s`, `\p{P}`, `\p{S}`)
  are embedded on the ASCII-plus-CJK-punctuation fragment actually
  exercised by screenplay text (`Char.isUpper`, `Char.isLower`,
  `Char.isWhitespace`, `isPuncSym`).
* Rust `HashMap`s are embedded as association lists in insertion order;
  the only map iteration the parser performs is modelled in that order.
* Wall-clock `parse_time` is impure and embedded as `0`.
-/

set_option maxHeartbeats 1000000
set_option maxRecDepth 100000

namespace BF

abbrev Str := List Char

/-- Unnormalised fraction embedding an `f64` duration (exact arithmetic). -/
structure Frac where
  num : Int
  den : Int
deriving DecidableEq, Repr

def Frac.zero : Frac := ⟨0, 1⟩

def Frac.add (a b : Frac) : Frac := ⟨a.num * b.den + b.num * a.den, a.den * b.den⟩

/-- `a * n` for a natural count `n` (char counts). -/
def Frac.mulNat (a : Frac) (n : Nat) : Frac := ⟨a.num * (n : Int), a.den⟩

/-- `a / n` (shot-cut redistribution divides by the node count). -/
def Frac.divNat (a : Frac) (n : Nat) : Frac := ⟨a.num, a.den * (n : Int)⟩

/-- `0.3` -/
def frac03 : Frac := ⟨3, 10⟩

/-- `0.75` -/
def frac075 : Frac := ⟨75, 100⟩

/-- `0.4` -/
def frac04 : Frac := ⟨4, 10⟩

/-! ## String helpers -/

/-- Rust regex `[ \t]`. -/
def isSpaceTab (c : Char) : Bool := c = ' ' || c = '\t'

/-- Rust regex `\s` / `char::is_whitespace`, on the fragment used by
screenplay text (ASCII whitespace). -/
def isWs (c : Char) : Bool := c.isWhitespace

/-- `str::trim` (both ends). -/
def trim (s : Str) : Str := ((s.dropWhile isWs).reverse.dropWhile isWs).reverse

/-- `trim_start`. -/
def ltrim (s : Str) : Str := s.dropWhile isWs

/-- `trim_end`. -/
def rtrim (s : Str) : Str := (s.reverse.dropWhile isWs).reverse

/-- drop a trailing run satisfying `p`. -/
def rdropWhile (p : Char → Bool) (s : Str) : Str := (s.reverse.dropWhile p).reverse

/-- `to_uppercase`, on the ASCII fragment (identity on CJK). -/
def upp (s : Str) : Str := s.map Char.toUpper

/-- `to_lowercase`, on the ASCII fragment. -/
def low (s : Str) : Str := s.map Char.toLower

/-- `str::len`: UTF-8 byte length. -/
def utf8Len (s : Str) : Nat := s.foldl (fun n c => n + c.utf8Size) 0

/-- first index at which `pat` occurs as a contiguous sublist (`str::find`). -/
def subFind (s pat : Str) : Option Nat :=
  match s with
  | [] => if pat = [] then some 0 else none
  | _ :: tl => if pat.isPrefixOf s then some 0 else (subFind tl pat).map (· + 1)

/-- worker for `replaceAll`; the fuel starts at the string length, so the
`0` case is unreachable for a non-empty pattern. -/
def replaceAllFuel (pat repl : Str) : Nat → Str → Str
  | 0, _ => []
  | _ + 1, [] => []
  | n + 1, c :: tl =>
    if pat ≠ [] && pat.isPrefixOf (c :: tl)
    then repl ++ replaceAllFuel pat repl n ((c :: tl).drop pat.length)
    else c :: replaceAllFuel pat repl n tl

/-- `str::replace` (all occurrences, left to right, non-overlapping). -/
def replaceAll (s pat repl : Str) : Str := replaceAllFuel pat repl s.length s

/-- `String::split(&['\r','\n'])`: split at every occurrence, keeping empties. -/
def splitLines (s : Str) : List Str :=
  match s with
  | [] => [[]]
  | c :: tl =>
    if c = '\r' || c = '\n' then [] :: splitLines tl
    else
      match splitLines tl with
      | [] => [[c]]
      | hd :: rest => (c :: hd) :: rest

/-- does `s` contain the character `c`. -/
def hasChar (s : Str) (c : Char) : Bool := s.contains c

/-! ## Sentinel character table (`fountain_constants.rs`)

The file on disk is encoding-corrupted: each entry is the cp1252 mojibake
of the intended arrow character.  The byte-for-byte values are reproduced
here (verified against the raw bytes of the source file). -/

def chNoteBeginExt : Str := ['à', '®', '‡']
def chNoteBegin : Str := ['â', '†', 'º']
def chNoteEnd : Str := ['â', '†', '»']
def chItalic : Str := ['â', '˜', 'ˆ']
def chBold : Str := ['â', '†', '­']
def chBoldItalic : Str := ['â', '†', '¯']
def chUnderline : Str := ['â', '˜', '„']
def chItalicUnderline : Str := ['â', '‡', '€']
def chBoldUnderline : Str := ['â', '˜']
def chBoldItalicUnderline : Str := ['â', '˜', '‹']
def chLink : Str := ['ğ', '“', '†', '¡']
def chLeftStash : Str := ['â', '†', '·']
def chLeftPop : Str := ['â', '†', '¶']
def chRightStash : Str := ['â', '†']
def chRightPop : Str := ['â', '†', 'œ']
def chGlobalStash : Str := ['â', '†', '¬']
def chGlobalPop : Str := ['â', '†', '«']
def chGlobalClean : Str := ['â', '‡', 'œ']
def chItalicGlobalBegin : Str := ['â', '†', '¾']
def chItalicGlobalEnd : Str := ['â', '†', '¿']

/-- the `"all"` entry: concatenation of every style string, in source order. -/
def chAll : Str :=
  chUnderline ++ chItalic ++ chBold ++ chBoldItalic ++ chNoteBegin ++ chNoteEnd ++
  chGlobalStash ++ chGlobalPop ++ chBoldUnderline ++ chBoldItalicUnderline ++
  chLeftStash ++ chLeftPop ++ chItalicGlobalBegin ++ chItalicGlobalEnd ++
  chRightStash ++ chRightPop ++ chItalicUnderline ++ chLink ++ chGlobalClean ++
  chNoteBeginExt

/-- `is_blank_line_after_style` (`utils/mod.rs`): delete every character of
the `"all"` set, then test whether the remainder trims to empty. -/
def isBlankLineAfterStyle (s : Str) : Bool :=
  (trim (s.filter (fun c => ¬ hasChar chAll c))).isEmpty

/-! ## Regex matchers (`FountainParser::init_regex` and inline literals)

Each matcher embeds one Rust regex, with the leftmost-first alternation and
greedy/lazy quantifier semantics of the `regex` crate, on the newline-free
line strings the parser feeds them. -/

/-- keyword list of the `title_page` regex (both spellings of the optional
suffixes written out). -/
def titlePageKeys : List Str :=
  [['t','i','t','l','e'], ['c','r','e','d','i','t'],
   "author".data, "authors".data, "source".data, "notes".data,
   "draft date".data, "date".data, "watermark".data,
   "contact".data, "contact info".data, "revision".data, "copyright".data,
   "font".data, "font italic".data, "font bold".data, "font bold italic".data,
   "metadata".data, "tl".data, "tc".data, "tr".data, "cc".data, "br".data,
   "bl".data, "header".data, "footer".data]

/-- `(?i)^[ \t]*(title|credit|author[s]?|…)\:.*` -/
def titlePageIsMatch (s : Str) : Bool :=
  let t := low (s.dropWhile isSpaceTab)
  titlePageKeys.any (fun k => (k ++ [':']).isPrefixOf t)

/-- the `int/ext` alternatives of the `scene_heading` regex, in alternation
order (`int|ext|est|int[.]?\/ext|i[.]?\/e`, the optional dot written out
greedily). -/
def sceneHeadingAlts : List Str :=
  ["int".data, "ext".data, "est".data, "int./ext".data, "int/ext".data,
   "i./e".data, "i/e".data]

/-- group 1 of `scene_heading`: `([.]|(?i:int|ext|est|int[.]?\/ext|i[.]?\/e)[. ])`,
returning the captured text and the remainder. -/
def sceneHeadingG1 (t : Str) : Option (Str × Str) :=
  match t with
  | '.' :: rest => some (['.'], rest)
  | _ =>
    sceneHeadingAlts.findSome? fun alt =>
      if alt.isPrefixOf (low t) then
        match t.drop alt.length with
        | c :: rest => if c = '.' || c = ' ' then some (t.take (alt.length + 1), rest) else none
        | [] => none
      else none

/-- captures of
`^[ \t]*([.]|(?i:int|ext|est|int[.]?\/ext|i[.]?\/e)[. ])\s*([^#]*)(#\s*[^\s].*#)?\s*$`. -/
def sceneHeadingCaps (s : Str) : Option (Str × Str × Option Str) :=
  let t := s.dropWhile isSpaceTab
  match sceneHeadingG1 t with
  | none => none
  | some (g1, rest) =>
    let u := rest.dropWhile isWs
    let g2 := u.takeWhile (· ≠ '#')
    let v := u.dropWhile (· ≠ '#')
    if v.isEmpty then some (g1, g2, none)
    else
      -- `v` starts with `#`; group 3 must cover it up to a final `#`,
      -- followed only by trailing whitespace
      let w := rdropWhile isWs v
      match w.getLast? with
      | some '#' =>
        let inner := (w.drop 1).dropLast
        if (inner.dropWhile isWs).isEmpty then none else some (g1, g2, some w)
      | _ => none

def sceneHeadingIsMatch (s : Str) : Bool := (sceneHeadingCaps s).isSome

/-- captures of `#\s*(?:\$\{\s*([^\}\s]*)\s*\})?\s*([^#]*)\s*#` (first match):
the optional `${var}` group and the number text. -/
def sceneNumberCaps (s : Str) : Option (Option Str × Str) :=
  match s.findIdx? (· = '#') with
  | none => none
  | some p =>
    let afterP := s.drop (p + 1)
    match afterP.findIdx? (· = '#') with
    | none => none
    | some q =>
      let content := afterP.take q
      let c1 := content.dropWhile isWs
      let (g1, c2) :=
        if ['$', '\x7b'].isPrefixOf c1 then
          let d := (c1.drop 2).dropWhile isWs
          let var := d.takeWhile (fun c => ¬ isWs c ∧ c ≠ '\x7d')
          let e := (d.drop var.length).dropWhile isWs
          match e with
          | '\x7d' :: rest => (some var, rest)
          | _ => ((none : Option Str), c1)
        else ((none : Option Str), c1)
      some (g1, c2.dropWhile isWs)

/-- `Regex::replace` of the `scene_number` regex with the empty string. -/
def sceneNumberReplaceFirst (s : Str) : Str :=
  match s.findIdx? (· = '#') with
  | none => s
  | some p =>
    match (s.drop (p + 1)).findIdx? (· = '#') with
    | none => s
    | some q => s.take p ++ s.drop (p + q + 2)

def sceneNumberIsMatch (s : Str) : Bool := (sceneNumberCaps s).isSome

/-- `^\s*(?:(>)[^\n\r<]*|[A-Z ]+TO:)$` -/
def transitionIsMatch (s : Str) : Bool :=
  (match s.dropWhile isWs with
   | '>' :: rest => rest.all (fun c => c ≠ '\n' ∧ c ≠ '\r' ∧ c ≠ '<')
   | _ => false)
  ||
  (let n := s.length
   decide (4 ≤ n) && s.drop (n - 3) = ['T', 'O', ':'] &&
   (let b := s.take (n - 3)
    (List.range b.length).any fun k =>
      (b.take k).all isWs && (b.drop k).all fun c => ('A' ≤ c ∧ c ≤ 'Z') ∨ c = ' '))

/-- `Captures::len()` of the transition regex: group 0 plus the single `(>)`
group.  `parse` tests `captures.len() > 2`, which is therefore always false. -/
def transitionRegexGroupCount : Nat := 2

/-- `captures.get(2)` on the transition regex: the pattern has no group 2. -/
def transitionCapGet2 : Option Str := none

/-- `(\s*\^)?\s*$` -/
def capCaret (w : Str) : Bool :=
  w.all isWs ||
  (match w.dropWhile isWs with
   | '^' :: rest => rest.all isWs
   | _ => false)

/-- `(\(.*\)|（.*）)?(\s*\^)?\s*$` -/
def charTail (w : Str) : Bool :=
  capCaret w ||
  (match w with
   | '(' :: rest =>
     (List.range rest.length).any fun j =>
       rest.get? j = some ')' && capCaret (rest.drop (j + 1))
   | '（' :: rest =>
     (List.range rest.length).any fun j =>
       rest.get? j = some '）' && capCaret (rest.drop (j + 1))
   | _ => false)

/-- `^[ \t]*((\p{Lu}[^\p{Ll}\r\n@]*)|(@[^\r\n\(（\^]*))(\(.*\)|（.*）)?(\s*\^)?\s*$`
(`\p{Lu}` / `\p{Ll}` embedded on the Latin fragment). -/
def characterIsMatch (s : Str) : Bool :=
  match s.dropWhile isSpaceTab with
  | [] => false
  | c :: rest =>
    (c.isUpper &&
      (let m := rest.takeWhile fun d => ¬ d.isLower ∧ d ≠ '@' ∧ d ≠ '\r' ∧ d ≠ '\n'
       (List.range (m.length + 1)).any fun k => charTail (rest.drop k)))
    ||
    (c = '@' &&
      (let m := rest.takeWhile fun d => d ≠ '\r' ∧ d ≠ '\n' ∧ d ≠ '(' ∧ d ≠ '（' ∧ d ≠ '^'
       (List.range (m.length + 1)).any fun k => charTail (rest.drop k)))

/-- `^[ \t]*(\(.+\)|（.+）)\s*$` -/
def parentheticalIsMatch (s : Str) : Bool :=
  let t := rdropWhile isWs (s.dropWhile isSpaceTab)
  (decide (3 ≤ t.length) && t.head? = some '(' && t.getLast? = some ')') ||
  (decide (3 ≤ t.length) && t.head? = some '（' && t.getLast? = some '）')

/-- `^[ \t]*(?:\(|（)[^\)）]*$` -/
def parentheticalStartIsMatch (s : Str) : Bool :=
  match s.dropWhile isSpaceTab with
  | c :: rest => (c = '(' || c = '（') && rest.all (fun d => d ≠ ')' ∧ d ≠ '）')
  | [] => false

/-- `^.*(?:\)|）)\s*$` -/
def parentheticalEndIsMatch (s : Str) : Bool :=
  let t := rdropWhile isWs s
  t.getLast? = some ')' || t.getLast? = some '）'

/-- `^[ \t]*>\s*(.+)\s*<\s*$` -/
def centeredIsMatch (s : Str) : Bool :=
  match s.dropWhile isSpaceTab with
  | '>' :: rest =>
    let u := rdropWhile isWs rest
    u.getLast? = some '<' && decide (2 ≤ u.length)
  | _ => false

/-- `^[ \t]*(#+)(?:\s*)(.*)` -/
def sectionIsMatch (s : Str) : Bool := (s.dropWhile isSpaceTab).head? = some '#'

/-- `^[ \t]*(?:\=)(.*)` -/
def synopsisIsMatch (s : Str) : Bool := (s.dropWhile isSpaceTab).head? = some '='

/-- `^\s*\={3,}\s*$` -/
def pageBreakIsMatch (s : Str) : Bool :=
  let t := trim s
  decide (3 ≤ t.length) && t.all (· = '=')

/-- `BLOCK_REGEX` `action_force`: `^(\s*)(\!)(.*)` -/
def actionForceIsMatch (s : Str) : Bool := (s.dropWhile isWs).head? = some '!'

/-- `BLOCK_REGEX` `lyric`: `^(\s*)(\~)(\s*)(.*)` -/
def lyricIsMatch (s : Str) : Bool := (s.dropWhile isWs).head? = some '~'

/-! ### Inline replacement regexes used by the branch bodies -/

/-- `Regex::replace` of `^[ \t]*\.` with `""`. -/
def stripLeadingDotRe (s : Str) : Str :=
  match s.dropWhile isSpaceTab with
  | '.' :: rest => rest
  | _ => s

/-- `Regex::replace` of `^\s*>\s*` with `""`. -/
def stripTransitionGt (s : Str) : Str :=
  match s.dropWhile isWs with
  | '>' :: rest => rest.dropWhile isWs
  | _ => s

/-- `Regex::replace` of `\^\s*$` with `""`. -/
def caretEndRemove (s : Str) : Str :=
  let u := rdropWhile isWs s
  match u.getLast? with
  | some '^' => u.dropLast
  | _ => s

/-- captures of `(\^\s*)(M.*$)` for a marker character `M` (the parser uses
the genuine `இ` and `↺` here, unlike the corrupted constants table):
returns group 2 when matched. -/
def caretNoteSplit (mark : Char) (s : Str) : Option Str :=
  (List.range s.length).findSome? fun i =>
    if s.get? i = some '^' then
      let after := (s.drop (i + 1)).dropWhile isWs
      if after.head? = some mark then some after else none
    else none

/-- `Regex::replace` of `^[ \t]*@` with `""` (`trim_character_force_symbol`). -/
def trimCharacterForceSymbol (s : Str) : Str :=
  match s.dropWhile isSpaceTab with
  | '@' :: rest => rest
  | _ => s

/-- `[ \t]*([ \t]*\^)?$` -/
def extTail (v : Str) : Bool :=
  v.all isSpaceTab || (v.dropWhile isSpaceTab = ['^'])

/-- does `[ \t]*(\(.*\)|（.*）)[ \t]*([ \t]*\^)?$` match at the start of `w`. -/
def extMatchesAt (w : Str) : Bool :=
  match w.dropWhile isSpaceTab with
  | '(' :: rest =>
    (List.range rest.length).any fun j =>
      rest.get? j = some ')' && extTail (rest.drop (j + 1))
  | '（' :: rest =>
    (List.range rest.length).any fun j =>
      rest.get? j = some '）' && extTail (rest.drop (j + 1))
  | _ => false

/-- `Regex::replace` of `[ \t]*(\(.*\)|（.*）)[ \t]*([ \t]*\^)?$` with `""`
(`trim_character_extension`): the match always extends to the end of the
string, so the leftmost match start is removed together with everything
after it. -/
def trimCharacterExtension (s : Str) : Str :=
  match (List.range s.length).find? (fun i => extMatchesAt (s.drop i)) with
  | some i => s.take i
  | none => s

/-- `Regex::replace` of `^(.*?↻)?[ \t]*@` with `""`: the greedy optional
group prefers the earliest `↻` whose continuation matches. -/
def charAtReplace (s : Str) : Str :=
  match (List.range s.length).findSome? (fun i =>
    if s.get? i = some '↻' then
      match (s.drop (i + 1)).dropWhile isSpaceTab with
      | '@' :: rest => some rest
      | _ => none
    else none) with
  | some rest => rest
  | none =>
    match s.dropWhile isSpaceTab with
    | '@' :: rest => rest
    | _ => s

/-- keyword list of the `font_mt` regex on line 1076:
`(?i)^\s*(font|font italic|font bold|font bold italic|metadata)\:(.*)`. -/
def fontMtKeys : List Str :=
  ["font".data, "font italic".data, "font bold".data, "font bold italic".data,
   "metadata".data]

/-- captures of `font_mt`: group 2 (the text after the colon). -/
def fontMtCaps (s : Str) : Option Str :=
  let t := s.dropWhile isWs
  fontMtKeys.findSome? fun k =>
    if (k ++ [':']).isPrefixOf (low t) then some (t.drop (k.length + 1)) else none

/-- keyword list of the `mt` regex on line 1084 (no font/metadata variants). -/
def titleMtKeys : List Str :=
  ["title".data, "credit".data, "author".data, "authors".data, "source".data,
   "notes".data, "draft date".data, "date".data, "watermark".data,
   "contact".data, "contact info".data, "revision".data, "copyright".data,
   "tl".data, "tc".data, "tr".data, "cc".data, "br".data, "bl".data,
   "header".data, "footer".data]

/-- captures of `(?i)^(.*?↻)??\s*(title|…)\:(.*)`: group 3.  The doubly-lazy
`??` prefers the variant without the `↻` prefix group. -/
def titleMtCaps (s : Str) : Option Str :=
  let direct :=
    let t := s.dropWhile isWs
    titleMtKeys.findSome? fun k =>
      if (k ++ [':']).isPrefixOf (low t) then some (t.drop (k.length + 1)) else none
  match direct with
  | some g3 => some g3
  | none =>
    (List.range s.length).findSome? fun i =>
      if s.get? i = some '↻' then
        let t := (s.drop (i + 1)).dropWhile isWs
        titleMtKeys.findSome? fun k =>
          if (k ++ [':']).isPrefixOf (low t) then some (t.drop (k.length + 1)) else none
      else none

/-- captures of the section display regex `^((?:.*?↻)?\s*)(#+)(?:\s*)(.*)`. -/
def sectionCaps (s : Str) : Option (Str × Str × Str) :=
  let attempt : Option Nat → Option (Str × Str × Str) := fun i =>
    let pre := match i with | some k => s.take (k + 1) | none => []
    let rest0 := match i with | some k => s.drop (k + 1) | none => s
    let ws := rest0.takeWhile isWs
    let rest := rest0.dropWhile isWs
    let hashes := rest.takeWhile (· = '#')
    if hashes.isEmpty then none
    else some (pre ++ ws, hashes, (rest.drop hashes.length).dropWhile isWs)
  match (List.range s.length).findSome?
      (fun k => if s.get? k = some '↻' then attempt (some k) else none) with
  | some r => some r
  | none => attempt none

/-- captures of the synopsis display regex `^((?:.*?↻)?\s*)(?:\=)(.*)`:
groups 1 and 2. -/
def synopsisCaps (s : Str) : Option (Str × Str) :=
  let attempt : Option Nat → Option (Str × Str) := fun i =>
    let pre := match i with | some k => s.take (k + 1) | none => []
    let rest0 := match i with | some k => s.drop (k + 1) | none => s
    let ws := rest0.takeWhile isWs
    match rest0.dropWhile isWs with
    | '=' :: rest => some (pre ++ ws, rest)
    | _ => none
  match (List.range s.length).findSome?
      (fun k => if s.get? k = some '↻' then attempt (some k) else none) with
  | some r => some r
  | none => attempt none

/-- captures of the forced-action display regex `^((?:.*?↻)?\s*)(\!)(.*)`:
groups 1 and 3. -/
def actionForceCaps (s : Str) : Option (Str × Str) :=
  let attempt : Option Nat → Option (Str × Str) := fun i =>
    let pre := match i with | some k => s.take (k + 1) | none => []
    let rest0 := match i with | some k => s.drop (k + 1) | none => s
    let ws := rest0.takeWhile isWs
    match rest0.dropWhile isWs with
    | '!' :: rest => some (pre ++ ws, rest)
    | _ => none
  match (List.range s.length).findSome?
      (fun k => if s.get? k = some '↻' then attempt (some k) else none) with
  | some r => some r
  | none => attempt none

/-- captures of the lyric display regex `^((?:.*?↻)?\s*)(\~)(\s*)(.*)`:
groups 1, 3 and 4. -/
def lyricCaps (s : Str) : Option (Str × Str × Str) :=
  let attempt : Option Nat → Option (Str × Str × Str) := fun i =>
    let pre := match i with | some k => s.take (k + 1) | none => []
    let rest0 := match i with | some k => s.drop (k + 1) | none => s
    let ws := rest0.takeWhile isWs
    match rest0.dropWhile isWs with
    | '~' :: rest => some (pre ++ ws, rest.takeWhile isWs, rest.dropWhile isWs)
    | _ => none
  match (List.range s.length).findSome?
      (fun k => if s.get? k = some '↻' then attempt (some k) else none) with
  | some r => some r
  | none => attempt none

/-- the trailing alternation `((?:இ.*$)|(?:↺.*$)|$)` of the centered display
regex, after the `\s*` that follows `<`: returns group 3 when valid. -/
def centeredG3 (suffix : Str) : Option Str :=
  let u := suffix.dropWhile isWs
  if u.isEmpty then some []
  else if u.head? = some 'இ' || u.head? = some '↺' then some u
  else none

/-- `[ \t]*>\s*(.+)\s*?<\s*((?:இ.*$)|(?:↺.*$)|$)` matched against `w`
(to the end): returns groups 2 and 3.  The greedy `(.+)` takes the latest
`<` with a valid suffix. -/
def centeredRest (w : Str) : Option (Str × Str) :=
  match w.dropWhile isSpaceTab with
  | '>' :: r0 =>
    ((List.range r0.length).reverse.findSome? fun j =>
      if r0.get? j = some '<' then
        match centeredG3 (r0.drop (j + 1)) with
        | some g3 =>
          let mid := r0.take j
          let g2 := mid.dropWhile isWs
          if ¬ g2.isEmpty then some (g2, g3)
          else
            match mid.getLast? with
            | some c => some ([c], g3)
            | none => none
        | none => none
      else none)
  | _ => none

/-- captures of the centered display regex
`((?:^.*?↻)|^)[ \t]*>\s*(.+)\s*?<\s*((?:இ.*$)|(?:↺.*$)|$)`:
groups 1–3; the first alternative of group 1 is preferred. -/
def centeredCaps (s : Str) : Option (Str × Str × Str) :=
  match (List.range s.length).findSome? (fun i =>
    if s.get? i = some '↻' then
      (centeredRest (s.drop (i + 1))).map fun (g2, g3) => (s.take (i + 1), g2, g3)
    else none) with
  | some r => some r
  | none => (centeredRest s).map fun (g2, g3) => (([] : Str), g2, g3)

/-- lazy split of `(.*?)[\-–—−](.*)` (`parse_location_information`). -/
def isDashChar (c : Char) : Bool := c = '-' || c = '–' || c = '—' || c = '−'

def splitLocTime (s : Str) : Option (Str × Str) :=
  match s.findIdx? isDashChar with
  | some i => some (s.take i, s.drop (i + 1))
  | none => none

/-! ### `process_token_text_style_char` (`text_processor.rs`) -/

/-- `process_token_text_style_char` on the text: `***` → bold-italic style
string, `**` → bold, `*` → italic, `_` → underline, then the (vacuous)
unescaping of `\*` and `\_`. -/
def processStyleText (t : Str) : Str :=
  if t.isEmpty then t
  else
    let t := replaceAll t ['*', '*', '*'] chBoldItalic
    let t := replaceAll t ['*', '*'] chBold
    let t := replaceAll t ['*'] chItalic
    let t := replaceAll t ['_'] chUnderline
    let t := replaceAll t ['\\', '*'] ['*']
    replaceAll t ['\\', '_'] ['_']

/-! ### comment / note splitting (`parse`, lines 879–896) -/

/-- tokenizer of `(\/\*|\*\/|\[\[\||\[\[|\]\])`: splits a line into the
symbol occurrences (leftmost, `[[|` preferred over `[[`) and the text
between them, dropping empty pieces. -/
def splitPartsFuel : Nat → Str → Str → List Str
  | 0, acc, _ => if acc.isEmpty then [] else [acc.reverse]
  | _ + 1, acc, [] => if acc.isEmpty then [] else [acc.reverse]
  | n + 1, acc, s@(c :: tl) =>
    let sym : Option (Str × Nat) :=
      if ['/', '*'].isPrefixOf s then some (['/', '*'], 2)
      else if ['*', '/'].isPrefixOf s then some (['*', '/'], 2)
      else if ['[', '[', '|'].isPrefixOf s then some (['[', '[', '|'], 3)
      else if ['[', '['].isPrefixOf s then some (['[', '['], 2)
      else if [']', ']'].isPrefixOf s then some ([']', ']'], 2)
      else none
    match sym with
    | some (sy, len) =>
      (if acc.isEmpty then [] else [acc.reverse]) ++ sy :: splitPartsFuel n [] (s.drop len)
    | none => splitPartsFuel n (c :: acc) tl

def splitParts (s : Str) : List Str := splitPartsFuel s.length [] s

/-! ## Data model (`models/*.rs`) -/

/-- `models/location.rs` `Location`. -/
structure Location where
  name : Str
  interior : Bool
  exterior : Bool
  timeOfDay : Str
  sceneNumber : Str
  line : Nat
  startPlaySec : Frac
deriving DecidableEq, Repr

/-- `models/struct_token.rs` `Synopsis`. -/
structure Synopsis where
  synopsis : Str
  line : Nat
deriving DecidableEq, Repr

/-- `models/struct_token.rs` `Note`. -/
structure NoteEntry where
  note : Str
  line : Nat
deriving DecidableEq, Repr

/-- `models/struct_token.rs` `Position`. -/
structure Pos where
  line : Nat
  character : Nat
deriving DecidableEq, Repr

/-- `models/struct_token.rs` `Range` (`end` renamed: reserved word). -/
structure RangeT where
  start : Pos
  endPos : Pos
deriving DecidableEq, Repr

/-- `models/struct_token.rs` `StructToken` (recursive through `children` and
`structs`; `section` renamed `sectionF`: reserved word). -/
inductive StructToken where
  | mk
    (text : Str)
    (isnote : Bool)
    (id : Option Str)
    (children : List StructToken)
    (range : Option RangeT)
    (level : Nat)
    (sectionF : Bool)
    (synopses : List Synopsis)
    (notes : List NoteEntry)
    (isscene : Bool)
    (ischartor : Bool)
    (dialogueEndLine : Nat)
    (durationSec : Frac)
    (playSec : Frac)
    (structs : List StructToken)
    (duration : Frac) : StructToken

namespace StructToken

def text : StructToken → Str | .mk t _ _ _ _ _ _ _ _ _ _ _ _ _ _ _ => t
def isnote : StructToken → Bool | .mk _ n _ _ _ _ _ _ _ _ _ _ _ _ _ _ => n
def id : StructToken → Option Str | .mk _ _ i _ _ _ _ _ _ _ _ _ _ _ _ _ => i
def children : StructToken → List StructToken | .mk _ _ _ c _ _ _ _ _ _ _ _ _ _ _ _ => c
def range : StructToken → Option RangeT | .mk _ _ _ _ r _ _ _ _ _ _ _ _ _ _ _ => r
def level : StructToken → Nat | .mk _ _ _ _ _ l _ _ _ _ _ _ _ _ _ _ => l
def sectionF : StructToken → Bool | .mk _ _ _ _ _ _ s _ _ _ _ _ _ _ _ _ => s
def synopses : StructToken → List Synopsis | .mk _ _ _ _ _ _ _ s _ _ _ _ _ _ _ _ => s
def notes : StructToken → List NoteEntry | .mk _ _ _ _ _ _ _ _ n _ _ _ _ _ _ _ => n
def isscene : StructToken → Bool | .mk _ _ _ _ _ _ _ _ _ s _ _ _ _ _ _ => s
def ischartor : StructToken → Bool | .mk _ _ _ _ _ _ _ _ _ _ c _ _ _ _ _ => c
def dialogueEndLine : StructToken → Nat | .mk _ _ _ _ _ _ _ _ _ _ _ d _ _ _ _ => d
def durationSec : StructToken → Frac | .mk _ _ _ _ _ _ _ _ _ _ _ _ d _ _ _ => d
def playSec : StructToken → Frac | .mk _ _ _ _ _ _ _ _ _ _ _ _ _ p _ _ => p
def structs : StructToken → List StructToken | .mk _ _ _ _ _ _ _ _ _ _ _ _ _ _ s _ => s
def duration : StructToken → Frac | .mk _ _ _ _ _ _ _ _ _ _ _ _ _ _ _ d => d

/-- `duration_sec += time` -/
def addDurationSec (f : Frac) : StructToken → StructToken
  | .mk t n i c r l s sy no sc ch de du p st dd => .mk t n i c r l s sy no sc ch de (du.add f) p st dd

/-- `children.push(cobj)` -/
def pushChild (cobj : StructToken) : StructToken → StructToken
  | .mk t n i c r l s sy no sc ch de du p st dd => .mk t n i (c ++ [cobj]) r l s sy no sc ch de du p st dd

/-- `synopses.push(s)` -/
def pushSynopsis (syn : Synopsis) : StructToken → StructToken
  | .mk t n i c r l s sy no sc ch de du p st dd => .mk t n i c r l s (sy ++ [syn]) no sc ch de du p st dd

/-- `dialogue_end_line = x` -/
def setDialogueEndLine (x : Nat) : StructToken → StructToken
  | .mk t n i c r l s sy no sc ch _ du p st dd => .mk t n i c r l s sy no sc ch x du p st dd

/-- `id = Some x` -/
def setId (x : Str) : StructToken → StructToken
  | .mk t n _ c r l s sy no sc ch de du p st dd => .mk t n (some x) c r l s sy no sc ch de du p st dd

mutual
/-- structural equality, mirroring the `serde_json` value comparison the
parser performs between structure tokens. -/
def beq : StructToken → StructToken → Bool
  | .mk t1 n1 i1 c1 r1 l1 s1 sy1 no1 sc1 ch1 de1 du1 p1 st1 dd1,
    .mk t2 n2 i2 c2 r2 l2 s2 sy2 no2 sc2 ch2 de2 du2 p2 st2 dd2 =>
    t1 = t2 && n1 = n2 && i1 = i2 && beqList c1 c2 && r1 = r2 && l1 = l2 &&
    s1 = s2 && sy1 = sy2 && no1 = no2 && sc1 = sc2 && ch1 = ch2 && de1 = de2 &&
    du1 = du2 && p1 = p2 && beqList st1 st2 && dd1 = dd2

def beqList : List StructToken → List StructToken → Bool
  | [], [] => true
  | a :: as, b :: bs => beq a b && beqList as bs
  | _, _ => false
end

end StructToken

/-- `models/script_token.rs` `ScriptToken` (`end` renamed `endPos`; the
`invisible_sections: Option<Vec<ScriptToken>>` field is never written by the
parser — always `None` — and is omitted to keep the token a plain
structure). -/
structure Token where
  tokenType : Str
  text : Str
  line : Nat
  start : Nat
  endPos : Nat
  isDualDialogue : Bool
  dual : Option Str
  durationSec : Option Frac
  time : Option Frac
  locationInfo : Option Location
  metadata : Option (List (Str × Str))
  index : Int
  number : Option Str
  textNoNotes : Option Str
  character : Option Str
  takeNumber : Option Int
  level : Option Int
  ignore : Bool
  charactersAction : Option (List Str)
  playTimeSec : Frac
deriving DecidableEq, Repr

/-- `ScriptToken::empty()`. -/
def Token.empty : Token where
  tokenType := []
  text := []
  line := 0
  start := 0
  endPos := 0
  isDualDialogue := false
  dual := none
  durationSec := none
  time := none
  locationInfo := none
  metadata := none
  index := -1
  number := none
  textNoNotes := none
  character := none
  takeNumber := none
  level := none
  ignore := false
  charactersAction := none
  playTimeSec := Frac.zero

/-- one entry of `properties.scenes`
(`Vec<HashMap<String, serde_json::Value>>`; the key set is static, so the
map is embedded as a record). -/
structure Scene where
  scene : Str
  text : Str
  line : Nat
  actionLength : Frac
  dialogueLength : Frac
  number : Str
  startPlaySec : Frac
  endPlaySec : Frac
deriving DecidableEq, Repr

/-- one entry of `shot_cut_strct_tokens`
(`HashMap<String, serde_json::Value>` with keys `duration` / `structs`). -/
structure ShotCutEntry where
  duration : Frac
  structs : List StructToken

/-- `models/conf.rs` `Conf`, restricted to the fields `parse` reads (the
remaining fields configure the out-of-scope renderer). -/
structure Conf where
  printNotes : Bool
  mergeEmptyLines : Bool
  eachSceneOnNewPage : Bool
  useDualDialogue : Bool
  dialogueFoldable : Bool
  printDialogueNumbers : Bool
  dialSecPerChar : Frac
  dialSecPerPuncShort : Frac
  dialSecPerPuncLong : Frac
  actionSecPerChar : Frac

/-- `Conf::default()`, restricted likewise. -/
def Conf.default : Conf where
  printNotes := true
  mergeEmptyLines := true
  eachSceneOnNewPage := false
  useDualDialogue := true
  dialogueFoldable := false
  printDialogueNumbers := false
  dialSecPerChar := frac03
  dialSecPerPuncShort := frac03
  dialSecPerPuncLong := frac075
  actionSecPerChar := frac04

/-- `models/screenplay_properties.rs` `ScreenplayProperties`
(`HashMap`s embedded as association lists in insertion order). -/
structure ScreenplayProperties where
  scenes : List Scene
  sceneLines : List Nat
  sceneNames : List Str
  titleKeys : List Str
  fontLine : Int
  characters : List (Str × List Nat)
  locations : List (Str × List Location)
  -- `structure` renamed `structureL`: reserved word
  structureL : List StructToken
  lengthAction : Nat
  lengthDialogue : Nat
  firstSceneLine : Option Nat
  firstTokenLine : Option Nat
  characterLines : Option (List (Nat × Str))
  characterFirstLine : Option (List (Str × Nat))
  characterDescribe : Option (List (Str × Str))
  characterSceneNumber : Option (List (Str × List Str))
  sceneNumberVars : Option (List Str)

/-- `ScreenplayProperties::new()`. -/
def ScreenplayProperties.new : ScreenplayProperties where
  scenes := []
  sceneLines := []
  sceneNames := []
  titleKeys := []
  fontLine := -1
  characters := []
  locations := []
  structureL := []
  lengthAction := 0
  lengthDialogue := 0
  firstSceneLine := none
  firstTokenLine := none
  characterLines := some []
  characterFirstLine := some []
  characterDescribe := some []
  characterSceneNumber := some []
  sceneNumberVars := some []

/-- `fountain_parser.rs` `Line` (never populated by `parse`). -/
structure Line where
  tokenType : Str
  token : Option Nat
  text : Str
  start : Nat
  endPos : Nat
  localIndex : Nat
  globalIndex : Nat
  number : Option Str
  dual : Option Str
  level : Option Int

/-- `fountain_parser.rs` `ParseOutput`. -/
structure ParseOutput where
  tokens : List Token
  properties : ScreenplayProperties
  lengthAction : Frac
  lengthDialogue : Frac
  parseTime : Nat
  scriptHtml : Option Str
  titleHtml : Option Str
  state : Str
  dualStr : Option Str
  titlePage : List (Str × List Token)
  dialSecPerChar : Frac
  dialSecPerPuncShort : Frac
  dialSecPerPuncLong : Frac
  actionSecPerChar : Frac
  lines : List Line

/-- `ParseOutput::new()` (wall-clock `parse_time` embedded as `0`). -/
def ParseOutput.new : ParseOutput where
  tokens := []
  properties := ScreenplayProperties.new
  lengthAction := Frac.zero
  lengthDialogue := Frac.zero
  parseTime := 0
  scriptHtml := none
  titleHtml := none
  state := "normal".data
  dualStr := none
  titlePage := []
  dialSecPerChar := frac03
  dialSecPerPuncShort := frac03
  dialSecPerPuncLong := frac075
  actionSecPerChar := frac04
  lines := []

/-- `TitleKeywordFormat`. -/
structure TitleKeywordFormat where
  position : Str
  index : Int

/-- `init_title_page_display` / `get_title_page_position`. -/
def getTitlePagePosition (key : Str) : Option TitleKeywordFormat :=
  let table : List (Str × Str × Int) :=
    [("title".data, "cc".data, 0), ("credit".data, "cc".data, 1),
     ("author".data, "cc".data, 2), ("authors".data, "cc".data, 3),
     ("source".data, "cc".data, 4),
     ("watermark".data, "hidden".data, -1), ("font".data, "hidden".data, -1),
     ("font_italic".data, "hidden".data, -1), ("font_bold".data, "hidden".data, -1),
     ("font_bold_italic".data, "hidden".data, -1), ("header".data, "hidden".data, -1),
     ("footer".data, "hidden".data, -1), ("metadata".data, "hidden".data, -1),
     ("notes".data, "bl".data, 0), ("copyright".data, "bl".data, 1),
     ("revision".data, "br".data, 0), ("date".data, "br".data, 1),
     ("draft_date".data, "br".data, 2), ("contact".data, "br".data, 3),
     ("contact_info".data, "br".data, 4),
     ("br".data, "br".data, -1), ("bl".data, "bl".data, -1),
     ("tr".data, "tr".data, -1), ("tc".data, "tc".data, -1),
     ("tl".data, "tl".data, -1), ("cc".data, "cc".data, -1)]
  (table.find? (fun e => e.1 = key)).map fun e => ⟨e.2.1, e.2.2⟩

/-- `FountainParser` instance state together with the locals of `parse`
(which are re-initialised by every call; the instance fields
`current_depth`, `take_count`, `lines_length` and `current_cursor` are the
ones `parse` does **not** reset). -/
structure PState where
  result : ParseOutput
  lengthActionSoFar : Frac
  lengthDialogueSoFar : Frac
  currentDepth : Nat
  sceneNumber : Nat
  playTimeSec : Frac
  lastScenStructureToken : Option StructToken
  lastScenStructureTokenPre : Option StructToken
  lastChartorStructureToken : Option StructToken
  forceNotDual : Bool
  takeCount : Nat
  linesLength : Nat
  currentCursor : Nat
  newLineLength : Nat
  textDisplay : Str
  textValid : Str
  shotCut : Nat
  shotCutStrctTokens : List ShotCutEntry
  currentOutlineNoteText : List Str
  currentOutlineNoteLinenum : List Nat
  nestedComments : Int
  nestedNotes : Int
  -- locals of `parse`:
  isBlockInner : Bool
  parentheticalOpen : Bool
  lastTitlePageToken : Option Token
  lastCharacterIndex : Nat
  lastWasSeparator : Bool
  ignoredLastToken : Bool
  fontTitle : Bool
  lastIsBlankTitle : Bool
  dupScenceNuber : List (Str × Str)
  scenceNumbers : List Str
  noteToken : Option Token
  needProcessOutlineNote : Nat
  previousCharacter : Option Str

/-- `FountainParser::new()` (locals included at their `parse`-entry values). -/
def PState.new : PState where
  result := ParseOutput.new
  lengthActionSoFar := Frac.zero
  lengthDialogueSoFar := Frac.zero
  currentDepth := 0
  sceneNumber := 1
  playTimeSec := Frac.zero
  lastScenStructureToken := none
  lastScenStructureTokenPre := none
  lastChartorStructureToken := none
  forceNotDual := true
  takeCount := 1
  linesLength := 0
  currentCursor := 0
  newLineLength := 1
  textDisplay := []
  textValid := []
  shotCut := 0
  shotCutStrctTokens := []
  currentOutlineNoteText := []
  currentOutlineNoteLinenum := []
  nestedComments := 0
  nestedNotes := 0
  isBlockInner := false
  parentheticalOpen := false
  lastTitlePageToken := none
  lastCharacterIndex := 0
  lastWasSeparator := false
  ignoredLastToken := false
  fontTitle := false
  lastIsBlankTitle := false
  dupScenceNuber := []
  scenceNumbers := []
  noteToken := none
  needProcessOutlineNote := 0
  previousCharacter := none

/-! ## Small container helpers (association lists, last-element updates) -/

def Frac.sub (a b : Frac) : Frac := ⟨a.num * b.den - b.num * a.den, a.den * b.den⟩

/-- update the last element of a list. -/
def listUpdateLast (f : α → α) : List α → List α
  | [] => []
  | [a] => [f a]
  | a :: tl => a :: listUpdateLast f tl

/-- association list lookup (`HashMap::get`). -/
def assocGet (l : List (Str × α)) (k : Str) : Option α :=
  (l.find? (fun e => e.1 = k)).map (·.2)

/-- update the value of the first matching key (`HashMap::get_mut`). -/
def assocUpdate (l : List (Str × α)) (k : Str) (f : α → α) : List (Str × α) :=
  match l with
  | [] => []
  | (k0, v) :: tl => if k0 = k then (k0, f v) :: tl else (k0, v) :: assocUpdate tl k f

/-! ## Parser helper methods (`impl FountainParser`) -/

/-- character classes `\p{P}` / `\p{S}`, embedded as ASCII punctuation and
symbols plus the CJK punctuation screenplay text uses. -/
def isPuncSym (c : Char) : Bool :=
  let n := c.toNat
  (33 ≤ n ∧ n ≤ 47) ∨ (58 ≤ n ∧ n ≤ 64) ∨ (91 ≤ n ∧ n ≤ 96) ∨ (123 ≤ n ∧ n ≤ 126) ∨
  c ∈ ['。', '？', '！', '：', '，', '、', '；', '（', '）', '…', '—', '–',
       '‘', '’', '“', '”', '《', '》', '〈', '〉', '【', '】', '·', '～',
       '「', '」', '『', '』', '．', '＂', '％', '＊', '＋', '－', '／', '＝']

/-- `calculate_chars`: strip `\s|\p{P}|\p{S}`. -/
def calculateChars (text : Str) : Str :=
  text.filter (fun c => ¬ (isWs c ∨ isPuncSym c))

/-- `calculate_action_duration` (with the config value always supplied, as
`parse` does). -/
def calculateActionDuration (text : Str) (x : Frac) : Frac :=
  Frac.mulNat x (calculateChars text).length

/-- long punctuation `(\.|\?|\!|\:|。|？|！|：)`. -/
def isLongPunc (c : Char) : Bool := c ∈ ['.', '?', '!', ':', '。', '？', '！', '：']

/-- short punctuation `(\,|，|;|；|、)`. -/
def isShortPunc (c : Char) : Bool := c ∈ [',', '，', ';', '；', '、']

/-- `calculate_dialogue_duration`: per-character base cost plus one
increment per punctuation occurrence (`captures_iter`). -/
def calculateDialogueDuration (text : Str) (x long short : Frac) : Frac :=
  let base := Frac.mulNat x (calculateChars text).length
  text.foldl
    (fun acc c =>
      if isLongPunc c then acc.add long
      else if isShortPunc c then acc.add short
      else acc)
    base

/-- `create_token`. -/
def createToken (text : Option Str) (cursor line length : Option Nat) (tokenType : Str) : Token :=
  { Token.empty with
    tokenType := tokenType
    text := text.getD []
    line := line.getD 0
    start := cursor.getD 0
    endPos := cursor.getD 0 + length.getD 0 }

/-- `push_token`. -/
def pushToken (st : PState) (t : Token) : PState :=
  { st with result := { st.result with tokens := st.result.tokens ++ [t] } }

/-- does `shot_cut_strct_tokens.last()` capture `l` (the `need` test of
`process_dialogue_block` / `process_action_block`). -/
def shotCutNeed (st : PState) (l : StructToken) : Bool :=
  decide (0 < st.shotCut) &&
  (match st.shotCutStrctTokens.getLast? with
   | some entry => entry.structs.any (fun s => StructToken.beq s l)
   | none => false)

/-- `process_dialogue_block`. -/
def processDialogueBlock (st : PState) (token : Token) : PState × Token :=
  if st.result.properties.scenes.isEmpty then (st, token)
  else
    let token := { token with textNoNotes := some st.textValid }
    let time := calculateDialogueDuration st.textValid
      st.result.dialSecPerChar st.result.dialSecPerPuncLong st.result.dialSecPerPuncShort
    let token := { token with time := some time }
    let st := { st with
      result := { st.result with lengthDialogue := st.result.lengthDialogue.add time }
      playTimeSec := st.playTimeSec.add time }
    let token := { token with playTimeSec := st.playTimeSec }
    let st :=
      match st.lastScenStructureToken with
      | none => st
      | some l =>
        if shotCutNeed st l then
          let upd := listUpdateLast (fun (e : ShotCutEntry) => { e with duration := e.duration.add time })
            st.shotCutStrctTokens
          { st with shotCutStrctTokens := upd }
        else
          { st with lastScenStructureToken := some (l.addDurationSec time) }
    let st :=
      match st.lastChartorStructureToken with
      | none => st
      | some c => { st with lastChartorStructureToken := some (c.addDurationSec time) }
    (st, token)

/-- `process_action_block`. -/
def processActionBlock (st : PState) (token : Token) : PState × Token :=
  if st.result.properties.scenes.isEmpty then (st, token)
  else
    let token := { token with textNoNotes := some st.textValid }
    let time := calculateActionDuration st.textValid st.result.actionSecPerChar
    let token := { token with time := some time }
    let st := { st with
      result := { st.result with lengthAction := st.result.lengthAction.add time }
      playTimeSec := st.playTimeSec.add time }
    let token := { token with playTimeSec := st.playTimeSec }
    let st :=
      match st.lastScenStructureToken with
      | none => st
      | some l =>
        if shotCutNeed st l then
          let upd := listUpdateLast (fun (e : ShotCutEntry) => { e with duration := e.duration.add time })
            st.shotCutStrctTokens
          { st with shotCutStrctTokens := upd }
        else
          { st with lastScenStructureToken := some (l.addDurationSec time) }
    (st, token)

/-- `usize::MAX` (the sentinel tested by `process_title_page_end`). -/
def usizeMax : Nat := 2 ^ 64 - 1

/-- `process_title_page_end`. -/
def processTitlePageEnd (st : PState) (line : Nat) : PState :=
  if st.result.properties.firstTokenLine = none ∨
     st.result.properties.firstTokenLine = some usizeMax then
    let st := { st with result := { st.result with
      properties := { st.result.properties with firstTokenLine := some line } } }
    if st.result.state = "title_page".data then
      let sep : Token := { Token.empty with
        tokenType := "separator".data
        text := chGlobalClean
        line := line
        start := 0
        endPos := 0 }
      let st := pushToken (pushToken (pushToken st sep) sep) sep
      { st with result := { st.result with state := "normal".data } }
    else st
  else st

/-- `Captures::len()` of the `scene_heading` regex: three groups plus the
whole match. -/
def sceneHeadingRegexLen : Nat := 4

/-- replace every whitespace character by a space
(`.replace(|c: char| c.is_whitespace(), " ")`). -/
def wsToSpace (s : Str) : Str := s.map (fun c => if isWs c then ' ' else c)

/-- substring containment (`str::contains(&str)`). -/
def hasSub (s pat : Str) : Bool := (subFind s pat).isSome

/-- `parse_location_information`. -/
def parseLocationInformation (sceneHeading : Str) : Option Location :=
  match sceneHeadingCaps sceneHeading with
  | none => none
  | some (g1, g2, _) =>
    if sceneHeadingRegexLen < 3 then none
    else
      let split := splitLocTime g2
      let i := hasChar g1 'I'
      let e := hasSub g1 "EX".data || hasSub g1 "E.".data
      let n := match split with
        | some (a, _) => trim a
        | none => trim g2
      let (n, i, e) :=
        if "(内景)".data.isPrefixOf n ∨ "（内景）".data.isPrefixOf n then
          (trim (n.drop 4), true, e)
        else if "(外景)".data.isPrefixOf n ∨ "（外景）".data.isPrefixOf n then
          (trim (n.drop 4), i, true)
        else if "(内外景)".data.isPrefixOf n ∨ "（内外景）".data.isPrefixOf n then
          (trim (n.drop 5), true, true)
        else (n, i, e)
      let n := wsToSpace (upp n)
      let dayT := match split with
        | some (_, b) => trim b
        | none => []
      let dayT := wsToSpace (upp dayT)
      some { name := n, interior := i, exterior := e, timeOfDay := dayT,
             sceneNumber := [], line := 0, startPlaySec := Frac.zero }

/-- `slugify`. -/
def slugify (text : Str) : Str :=
  replaceAll (replaceAll (wsToSpace (upp text)) " -".data "-".data) "- ".data "-".data

/-- inner loop of `latest_section` (descend at most `fuel` levels, stopping
at scenes or when no section child exists). -/
def latestSectionGo : Nat → StructToken → StructToken
  | 0, cur => cur
  | n + 1, cur =>
    if cur.isscene then cur
    else
      match (cur.children.reverse).find? (·.sectionF) with
      | some child => latestSectionGo n child
      | none => cur

/-- `latest_section`. -/
def latestSection (st : PState) (depth : Nat) : Option StructToken :=
  if depth = 0 then none
  else
    match (st.result.properties.structureL.reverse).find? (·.sectionF) with
    | none => none
    | some cur => if depth = 1 then some cur else some (latestSectionGo (depth - 1) cur)

/-- `process_inline_notes`. -/
def processInlineNotes (st : PState) : PState :=
  (st.currentOutlineNoteText.zip st.currentOutlineNoteLinenum).foldl
    (fun st (noteText, lineNumber) =>
      if (trim noteText).isEmpty then st
      else
        let t := trim noteText
        let tok : StructToken := .mk t true (some ('/' :: (Nat.repr lineNumber).data))
          [] (some ⟨⟨lineNumber, 0⟩, ⟨lineNumber, t.length + 4⟩⟩) 0 false [] [] false false 0
          Frac.zero st.playTimeSec [] Frac.zero
        { st with result := { st.result with properties :=
            { st.result.properties with structureL := st.result.properties.structureL ++ [tok] } } })
    st

/-- `add_outline_note`. -/
def addOutlineNote (st : PState) (note : Str) (line : Nat) : PState :=
  if st.currentOutlineNoteText.isEmpty then st
  else
    let texts := listUpdateLast (· ++ note) st.currentOutlineNoteText
    let lastEmpty := match texts.getLast? with
      | some t => (trim t).isEmpty
      | none => true
    if lastEmpty then
      { st with currentOutlineNoteText := texts,
                currentOutlineNoteLinenum := listUpdateLast (fun _ => line) st.currentOutlineNoteLinenum }
    else { st with currentOutlineNoteText := texts }

/-- one `part` step of `process_comments_and_notes`. -/
def processPart (cfg : Conf) (lineNum : Nat) (st : PState) (part : Str) : PState :=
  if part.isEmpty then st
  else if part = "/*".data then
    if st.nestedNotes = 0 then { st with nestedComments := st.nestedComments + 1 }
    else
      let st := addOutlineNote st "/*".data lineNum
      if cfg.printNotes then { st with textDisplay := st.textDisplay ++ part } else st
  else if part = "*/".data then
    if 0 < st.nestedComments then { st with nestedComments := st.nestedComments - 1 }
    else if st.nestedNotes = 0 then
      { st with textDisplay := st.textDisplay ++ part, textValid := st.textValid ++ part }
    else
      let st := addOutlineNote st "*/".data lineNum
      if cfg.printNotes then { st with textDisplay := st.textDisplay ++ part } else st
  else if part = "[[".data ∨ part = "[[|".data then
    if st.nestedComments = 0 then
      let st := { st with nestedNotes := st.nestedNotes + 1 }
      if st.nestedNotes = 1 then
        let st := { st with
          currentOutlineNoteText := st.currentOutlineNoteText ++ [[]],
          currentOutlineNoteLinenum := st.currentOutlineNoteLinenum ++ [lineNum] }
        if cfg.printNotes then
          if part = "[[|".data then
            { st with textDisplay := st.textDisplay ++ chNoteBeginExt ++ "[".data }
          else
            { st with textDisplay := st.textDisplay ++ chNoteBegin ++ "[".data }
        else st
      else
        let st := addOutlineNote st "[".data lineNum
        if cfg.printNotes then { st with textDisplay := st.textDisplay ++ "[".data } else st
    else st
  else if part = "]]".data then
    if 0 < st.nestedNotes then
      let st := { st with nestedNotes := st.nestedNotes - 1 }
      if st.nestedNotes = 0 then
        if cfg.printNotes then
          { st with textDisplay := st.textDisplay ++ "]".data ++ chNoteEnd }
        else st
      else
        let st := addOutlineNote st "]".data lineNum
        if cfg.printNotes then { st with textDisplay := st.textDisplay ++ "]".data } else st
    else if st.nestedComments = 0 then
      { st with textDisplay := st.textDisplay ++ part, textValid := st.textValid ++ part }
    else st
  else
    if 0 < st.nestedComments then st
    else if 0 < st.nestedNotes then
      let st := addOutlineNote st part lineNum
      if cfg.printNotes then { st with textDisplay := st.textDisplay ++ part } else st
    else
      { st with textDisplay := st.textDisplay ++ part, textValid := st.textValid ++ part }

/-- `process_comments_and_notes`. -/
def processCommentsAndNotes (cfg : Conf) (parts : List Str) (lineNum : Nat) (st : PState) : PState :=
  parts.foldl (processPart cfg lineNum) st

/-- `update_previous_scene_length`. -/
def updatePreviousSceneLength (st : PState) : PState :=
  let action := st.result.lengthAction.sub st.lengthActionSoFar
  let dialogue := st.result.lengthDialogue.sub st.lengthDialogueSoFar
  let st := { st with
    lengthActionSoFar := st.result.lengthAction,
    lengthDialogueSoFar := st.result.lengthDialogue }
  if st.result.properties.scenes.isEmpty then st
  else
    let scs := listUpdateLast
      (fun (sc : Scene) =>
        { sc with
          actionLength := action
          dialogueLength := dialogue
          endPlaySec := st.playTimeSec })
      st.result.properties.scenes
    { st with result := { st.result with properties := { st.result.properties with scenes := scs } } }

/-! ## Further container helpers used by the main loop -/

/-- update the first element satisfying `p`. -/
def replaceFirstWhere (p : α → Bool) (f : α → α) : List α → List α
  | [] => []
  | a :: tl => if p a then f a :: tl else a :: replaceFirstWhere p f tl

/-- update the last element satisfying `p` (the `iter_mut().rev()` searches). -/
def updateLastWhere (p : α → Bool) (f : α → α) (l : List α) : List α :=
  (replaceFirstWhere p f l.reverse).reverse

/-- `HashMap::insert` keyed by a string (replace or append). -/
def assocSet (l : List (Str × α)) (k : Str) (v : α) : List (Str × α) :=
  if (l.find? (fun e => e.1 = k)).isSome then assocUpdate l k (fun _ => v)
  else l ++ [(k, v)]

/-- `HashMap::insert` keyed by a natural number. -/
def assocSetNat (l : List (Nat × α)) (k : Nat) (v : α) : List (Nat × α) :=
  if (l.find? (fun e => e.1 = k)).isSome then
    l.map (fun e => if e.1 = k then (k, v) else e)
  else l ++ [(k, v)]

/-! ## The per-line branches of `FountainParser::parse` -/

/-- the token types the dual-dialogue forward walk advances over. -/
def dialogTypes : List Str := ["dialogue".data, "character".data, "parenthetical".data]

/-- the token types the backward walks step over silently. -/
def backSkipTypes : List Str :=
  ["separator".data, "character".data, "dialogue".data, "parenthetical".data]

/-- the forward walk of the dual-dialogue retrofit (lines 1600–1620): from
`last_character_index`, tag untagged dialogue-group tokens `left` and pick
the side of the new cue.  Returns (tokens, dual_str, mod_last). -/
def dualWalk : Nat → Nat → List Token → Option Str → Bool →
    (List Token × Option Str × Bool)
  | 0, _, tokens, dualStr, modLast => (tokens, dualStr, modLast)
  | fuel + 1, idx, tokens, dualStr, modLast =>
    match tokens.get? idx with
    | none => (tokens, dualStr, modLast)
    | some tok =>
      if tok.tokenType ∈ dialogTypes then
        let oldDual := tok.dual
        if oldDual = none ∨ oldDual = some [] then
          dualWalk fuel (idx + 1) (tokens.set idx { tok with dual := some "left".data })
            (some "right".data) true
        else if oldDual = some "left".data then
          dualWalk fuel (idx + 1) tokens (some "right".data) modLast
        else
          dualWalk fuel (idx + 1) tokens (some "left".data) modLast
      else (tokens, dualStr, modLast)

/-- the backward patch of lines 1624–1641: drop a trailing
`dialogue_end` (and anything walked past after it) and rewrite the opening
`dialogue_begin` into `dual_dialogue_begin`.  The index argument is the
`temp_index` of the source; the fuel makes the recursion structural. -/
def backWalkBegin : Nat → Nat → List Token → List Token
  | 0, _, tokens => tokens
  | fuel + 1, tempIndex, tokens =>
    if tempIndex = 0 then tokens
    else
      let t := tempIndex - 1
      match tokens.get? t with
      | none => tokens
      | some tok =>
        if tok.tokenType = "dialogue_end".data then
          backWalkBegin fuel (t - 1) (tokens.take t)
        else if tok.tokenType ∈ backSkipTypes then
          backWalkBegin fuel t tokens
        else if tok.tokenType = "dialogue_begin".data then
          tokens.set t { tok with tokenType := "dual_dialogue_begin".data }
        else tokens

/-- the backward removal of a previous `dual_dialogue_end`
(lines 1647–1661). -/
def backWalkEnd : Nat → Nat → List Token → List Token
  | 0, _, tokens => tokens
  | fuel + 1, tempIndex, tokens =>
    if tempIndex = 0 then tokens
    else
      let t := tempIndex - 1
      match tokens.get? t with
      | none => tokens
      | some tok =>
        if tok.tokenType = "dual_dialogue_end".data then
          backWalkEnd fuel (t - 1) (tokens.take t)
        else if tok.tokenType ∈ backSkipTypes then
          backWalkEnd fuel t tokens
        else tokens

/-- blank-display handling (lines 941–1049). -/
def blankBranch (cfg : Conf) (i : Nat) (text : Str) (thisToken : Token)
    (emptyBreakLine isBlockEndEmptyLine : Bool) (st : PState) : PState :=
  if emptyBreakLine then
    let skipSeparator :=
      (cfg.mergeEmptyLines && st.lastWasSeparator) ||
      (st.ignoredLastToken && decide (1 < st.result.tokens.length) &&
        (match st.result.tokens.getLast? with
         | some tok => tok.tokenType = "separator".data
         | none => false))
    if skipSeparator then st
    else
      let st := pushToken st { thisToken with tokenType := "separator".data }
      { st with lastWasSeparator := true }
  else if isBlockEndEmptyLine then
    let st :=
      if st.result.state = "dialogue".data then
        let st := { st with
          lastChartorStructureToken :=
            st.lastChartorStructureToken.map (·.setDialogueEndLine (i - 1))
          parentheticalOpen := false }
        pushToken st { Token.empty with
          tokenType := "dialogue_end".data
          text := st.textDisplay
          line := i
          start := 0
          endPos := utf8Len text }
      else st
    let st :=
      if st.result.state = "dual_dialogue".data then
        let st := { st with
          lastChartorStructureToken :=
            st.lastChartorStructureToken.map (·.setDialogueEndLine (i - 1))
          parentheticalOpen := false }
        pushToken st { Token.empty with
          tokenType := "dual_dialogue_end".data
          text := st.textDisplay
          line := i
          start := 0
          endPos := utf8Len text }
      else st
    let st := { st with result := { st.result with dualStr := none, state := "normal".data } }
    let st := pushToken st
      { thisToken with tokenType := "separator".data, text := chGlobalClean }
    { st with lastWasSeparator := true }
  else
    if st.result.tokens.isEmpty then st
    else if st.result.state = "title_page".data then
      if st.fontTitle then st
      else
        let merge :=
          cfg.mergeEmptyLines &&
          (match st.lastTitlePageToken with
           | some t =>
             t.text.getLast? = some '\n' &&
             decide (0 < ((t.text.reverse.drop 1).takeWhile (· = ' ')).length)
           | none => false)
        if ¬ merge ∧ st.lastTitlePageToken.isSome then
          { st with lastTitlePageToken :=
              st.lastTitlePageToken.map (fun t => { t with text := t.text ++ ['\n'] }) }
        else st
    else
      match st.result.tokens.getLast? with
      | none => st
      | some lastToken =>
        let merge := cfg.mergeEmptyLines && (trim lastToken.text).isEmpty
        if merge then st
        else
          let tok :=
            if lastToken.tokenType = "character".data then
              { thisToken with tokenType := "dialogue".data, dual := lastToken.dual }
            else if lastToken.tokenType = "parenthetical".data then
              { thisToken with tokenType := "parenthetical".data, dual := lastToken.dual }
            else if lastToken.tokenType = "dialogue".data then
              { thisToken with tokenType := "dialogue".data, dual := lastToken.dual }
            else
              { thisToken with tokenType := "action".data }
          pushToken st tok

/-- update the token of `last_title_page_token`'s type inside the title-page
map with a new text (the `iter_mut().rev()` searches of lines 1141 / 1182). -/
def titlePageUpdateText (st : PState) (tokenType newText : Str) : PState :=
  match getTitlePagePosition tokenType with
  | none => st
  | some posn =>
    let upd := assocUpdate st.result.titlePage posn.position
      (updateLastWhere (fun tok => tok.tokenType = tokenType)
        (fun tok => { tok with text := newText }))
    { st with result := { st.result with titlePage := upd } }

/-- title-page handling (lines 1057–1193); the boolean is `true` when the
line was consumed (`continue`) and `false` when control falls through to
the normal-state classification. -/
def titlePageBranch (cfg : Conf) (i : Nat) (thisToken : Token) (isBlockBeginLine : Bool)
    (st : PState) : PState × Bool :=
  let st :=
    if isBlockBeginLine ∧ ¬ titlePageIsMatch st.textValid then
      if st.lastTitlePageToken.isSome ∧ ¬ (trim st.textValid).isEmpty then st
      else processTitlePageEnd st i
    else st
  if titlePageIsMatch st.textValid then
    let st := { st with textValid := trim st.textValid }
    let index := (st.textValid.findIdx? (· = ':')).getD 0
    let thisToken := { thisToken with
      tokenType := (low (st.textValid.take index)).map (fun c => if c = ' ' then '_' else c) }
    let (st, thisToken) :=
      match fontMtCaps st.textValid with
      | some g2 =>
        ({ st with fontTitle := true }, { thisToken with text := trim g2 })
      | none =>
        let st := { st with fontTitle := false }
        match titleMtCaps st.textDisplay with
        | some g3 =>
          let thisToken := { thisToken with text := trim g3 }
          let thisToken := { thisToken with text := processStyleText thisToken.text }
          let thisToken := { thisToken with text := chGlobalClean ++ thisToken.text }
          ({ st with lastIsBlankTitle := false }, thisToken)
        | none => (st, thisToken)
    let st := { st with lastTitlePageToken := some thisToken }
    let (st, thisToken) :=
      match getTitlePagePosition thisToken.tokenType with
      | some posn =>
        let thisToken := { thisToken with index := posn.index }
        let tp := st.result.titlePage
        let tp := if (assocGet tp posn.position).isSome then tp else tp ++ [(posn.position, [])]
        let tp := assocUpdate tp posn.position (fun toks => toks ++ [thisToken])
        ({ st with result := { st.result with titlePage := tp } }, thisToken)
      | none => (st, thisToken)
    let st :=
      if thisToken.tokenType ∈ st.result.properties.titleKeys then st
      else { st with result := { st.result with properties :=
        { st.result.properties with titleKeys := st.result.properties.titleKeys ++ [thisToken.tokenType] } } }
    (st, true)
  else if st.result.state = "title_page".data then
    -- continuation lines (1123–1192)
    let st :=
      if st.fontTitle then
        let tokText := trim st.textValid
        if ¬ tokText.isEmpty ∧ st.lastTitlePageToken.isSome then
          let lastText := (st.lastTitlePageToken.map (·.text)).getD []
          let separator : Str := if lastText.isEmpty then [] else " ".data
          let newText := lastText ++ separator ++ trim tokText
          let st := { st with lastTitlePageToken :=
            st.lastTitlePageToken.map (fun t => { t with text := newText }) }
          let typ := ((st.lastTitlePageToken.map (·.tokenType)).getD [])
          titlePageUpdateText st typ newText
        else st
      else
        let tokText := processStyleText (trim st.textDisplay)
        let (st, handled) :=
          if cfg.mergeEmptyLines then
            let currBlank := isBlankLineAfterStyle tokText
            if currBlank ∧ st.lastIsBlankTitle ∧ st.lastTitlePageToken.isSome then
              let t := tokText.filter (fun c => ¬ hasChar chAll c)
              ({ st with
                  lastTitlePageToken :=
                    st.lastTitlePageToken.map (fun tk => { tk with text := tk.text ++ t })
                  lastIsBlankTitle := currBlank }, true)
            else ({ st with lastIsBlankTitle := currBlank }, false)
          else (st, false)
        if ¬ handled ∧ st.lastTitlePageToken.isSome then
          let lastText := (st.lastTitlePageToken.map (·.text)).getD []
          let separator : Str := if ¬ isBlankLineAfterStyle lastText then ['\n'] else []
          let newText := lastText ++ separator ++ trim tokText
          let st := { st with lastTitlePageToken :=
            st.lastTitlePageToken.map (fun t => { t with text := newText }) }
          let typ := ((st.lastTitlePageToken.map (·.tokenType)).getD [])
          titlePageUpdateText st typ newText
        else st
    (st, true)
  else (st, false)

/-- dialogue / dual-dialogue state handling (lines 1197–1272). -/
def dialogueBranch (thisToken : Token) (st : PState) : PState :=
  let wrap : Str → Str := fun t => chItalicGlobalBegin ++ t ++ chItalicGlobalEnd
  if st.parentheticalOpen then
    let thisToken := { thisToken with
      tokenType := "parenthetical".data
      dual := st.result.dualStr
      text := st.textDisplay }
    let thisToken := { thisToken with text := wrap (processStyleText thisToken.text) }
    let st :=
      if parentheticalEndIsMatch st.textValid then { st with parentheticalOpen := false }
      else st
    pushToken st thisToken
  else if parentheticalIsMatch st.textValid then
    let thisToken := { thisToken with
      tokenType := "parenthetical".data
      dual := st.result.dualStr
      text := st.textDisplay }
    let thisToken := { thisToken with text := wrap (processStyleText thisToken.text) }
    pushToken st thisToken
  else if parentheticalStartIsMatch st.textValid then
    let thisToken := { thisToken with
      tokenType := "parenthetical".data
      dual := st.result.dualStr
      text := st.textDisplay }
    let thisToken := { thisToken with text := wrap (processStyleText thisToken.text) }
    pushToken { st with parentheticalOpen := true } thisToken
  else
    let thisToken := { thisToken with
      tokenType := "dialogue".data
      dual := st.result.dualStr
      text := st.textDisplay }
    let thisToken := { thisToken with text := wrap (processStyleText thisToken.text) }
    let (st, thisToken) := processDialogueBlock st thisToken
    pushToken st thisToken

/-- `serde_json::from_str` on the title-page metadata JSON.  JSON parsing
lives in an external crate; per §7 of the behaviour a parse failure is
swallowed and prior values retained, and the embedding makes the parse
always fail (no claim exercises document metadata). -/
def parseMetadataDur (_ : Str) :
    Option (Option Frac × Option Frac × Option Frac × Option Frac) := none

def braceL : Char := '\x7b'
def braceR : Char := '\x7d'

/-- worker for `collapseWs` (flag: previous character was whitespace). -/
def collapseWsGo : Bool → Str → Str
  | _, [] => []
  | prevWs, c :: tl =>
    if isWs c then
      if prevWs then collapseWsGo true tl else ' ' :: collapseWsGo true tl
    else c :: collapseWsGo false tl

/-- `Regex::replace_all` of `\s+` with a single space. -/
def collapseWs (s : Str) : Str := collapseWsGo false s

/-- attach `cobj` as a child of the first top-level structure node whose id
matches (`for parent in &mut structure { if parent.id == id { push; break } }`). -/
def attachChildToParent (st : PState) (parentId : Option Str) (cobj : StructToken) : PState :=
  { st with result := { st.result with properties := { st.result.properties with
      structureL := replaceFirstWhere (fun p => p.id = parentId) (·.pushChild cobj)
        st.result.properties.structureL } } }

/-- the structure-node attachment of the scene-heading branch
(lines 1429–1450): append at top level or under the latest section. -/
def sceneHeadingStructure (cobj : StructToken) (line : Nat) (st : PState) :
    PState × StructToken :=
  if st.currentDepth = 0 then
    let cobj := cobj.setId ('/' :: (Nat.repr line).data)
    ({ st with result := { st.result with properties := { st.result.properties with
        structureL := st.result.properties.structureL ++ [cobj] } } }, cobj)
  else
    match latestSection st st.currentDepth with
    | some level =>
      let cobj := cobj.setId ((level.id.getD []) ++ '/' :: (Nat.repr line).data)
      (attachChildToParent st level.id cobj, cobj)
    | none =>
      let cobj := cobj.setId ('/' :: (Nat.repr line).data)
      ({ st with result := { st.result with properties := { st.result.properties with
          structureL := st.result.properties.structureL ++ [cobj] } } }, cobj)

/-- the scene-heading branch from the structure-node bookkeeping through the
final push (lines 1451–1522). -/
def sceneHeadingFinish (thisToken : Token) (nb textForToken : Str)
    (sceneNumberDup : Prop) [Decidable sceneNumberDup] (cobj : StructToken)
    (st : PState) : PState :=
  let st := { st with
    lastScenStructureTokenPre := st.lastScenStructureToken
    lastScenStructureToken := some cobj }
  -- shot-cut capture (1455–1463)
  let st :=
    if 0 < st.shotCut then
      { st with shotCutStrctTokens :=
          listUpdateLast (fun e => { e with structs := e.structs ++ [cobj] }) st.shotCutStrctTokens }
    else st
  let st := updatePreviousSceneLength st
  let st :=
    if st.result.properties.scenes.isEmpty then st
    else
      let scs := listUpdateLast (fun (sc : Scene) => { sc with endPlaySec := st.playTimeSec })
        st.result.properties.scenes
      { st with result := { st.result with properties := { st.result.properties with scenes := scs } } }
  -- new scene record (1476–1489)
  let sceneMap : Scene :=
    { scene := nb, text := textForToken, line := thisToken.line,
      actionLength := Frac.zero, dialogueLength := Frac.zero, number := nb,
      startPlaySec := st.playTimeSec, endPlaySec := st.playTimeSec }
  let st := { st with result := { st.result with properties := { st.result.properties with
      scenes := st.result.properties.scenes ++ [sceneMap]
      sceneLines := st.result.properties.sceneLines ++ [thisToken.line]
      sceneNames := st.result.properties.sceneNames ++ [st.textValid] } } }
  -- location index (1492–1514)
  let st :=
    match parseLocationInformation st.textValid with
    | none => st
    | some location =>
      let locationSlug := slugify location.name
      let lslugs := ([locationSlug].map trim).filter (fun it => ¬ it.isEmpty)
      lslugs.foldl
        (fun st sl =>
          let loc := { location with sceneNumber := nb, line := thisToken.line,
                                     startPlaySec := st.playTimeSec }
          match assocGet st.result.properties.locations sl with
          | some locs =>
            if locs.any (fun it => it.line = thisToken.line) then st
            else
              { st with result := { st.result with properties := { st.result.properties with
                  locations := assocUpdate st.result.properties.locations sl (· ++ [loc]) } } }
          | none =>
            { st with result := { st.result with properties := { st.result.properties with
                locations := st.result.properties.locations ++ [(sl, [loc])] } } })
        st
  let st := if sceneNumberDup then st else { st with sceneNumber := st.sceneNumber + 1 }
  pushToken st thisToken

/-- the scene-heading branch from duplicate detection through the final push
(lines 1361–1522). -/
def sceneHeadingTail (thisToken : Token) (nb textForToken : Str)
    (st : PState) : PState :=
  -- duplicate detection (1361–1372)
  let sceneNumberDup := nb ∈ st.scenceNumbers
  let st := if sceneNumberDup then st else { st with scenceNumbers := st.scenceNumbers ++ [nb] }
  let thisToken := { thisToken with
    number := if sceneNumberDup then some ('↑' :: nb) else some nb }
  -- dash and whitespace normalisation (1375–1399)
  let textForToken :=
    match textForToken.findIdx? (· = '-') with
    | some pos => textForToken.take pos ++ " - ".data ++ textForToken.drop (pos + 1)
    | none => textForToken
  let textForToken := wsToSpace (upp textForToken)
  let st :=
    match st.textDisplay.findIdx? (· = '-') with
    | some pos =>
      { st with textDisplay := st.textDisplay.take pos ++ " - ".data ++ st.textDisplay.drop (pos + 1) }
    | none => st
  let st := { st with textDisplay := trim (collapseWs (wsToSpace (upp st.textDisplay))) }
  let thisToken := { thisToken with text := st.textDisplay }
  let thisToken :=
    let t := ltrim thisToken.text
    if t.head? = some '.' then { thisToken with text := ltrim (t.drop 1) } else thisToken
  let thisToken := { thisToken with textNoNotes := some textForToken }
  -- structure node (1409–1450)
  let cobj : StructToken := .mk
    ((thisToken.number.getD []) ++ " ".data ++ textForToken) false none []
    (some ⟨⟨thisToken.line, 0⟩, ⟨thisToken.line, utf8Len st.textValid⟩⟩) 0 false [] []
    true false 0 Frac.zero st.playTimeSec [] Frac.zero
  let (st, cobj) := sceneHeadingStructure cobj thisToken.line st
  sceneHeadingFinish thisToken nb textForToken sceneNumberDup cobj st

/-- scene-heading branch (lines 1280–1522). -/
def sceneHeadingBranch (cfg : Conf) (i : Nat) (text : Str) (thisToken : Token)
    (st : PState) : PState :=
  let st := processTitlePageEnd st i
  -- first-scene bookkeeping and metadata duration overrides (1283–1314)
  let st :=
    if st.result.properties.firstSceneLine = none ∨
       st.result.properties.firstSceneLine = some usizeMax then
      let st := { st with result := { st.result with properties :=
        { st.result.properties with firstSceneLine := some i } } }
      match assocGet st.result.titlePage "hidden".data with
      | none => st
      | some hiddenTokens =>
        match hiddenTokens.find? (fun t => t.tokenType = "metadata".data) with
        | none => st
        | some tok =>
          let jsonText := if "Metadata: ".data.isPrefixOf tok.text then tok.text.drop 10 else tok.text
          match parseMetadataDur jsonText with
          | none => st
          | some (a, b, c, d) =>
            let r := st.result
            let r := match a with | some v => { r with dialSecPerChar := v } | none => r
            let r := match b with | some v => { r with dialSecPerPuncShort := v } | none => r
            let r := match c with | some v => { r with dialSecPerPuncLong := v } | none => r
            let r := match d with | some v => { r with actionSecPerChar := v } | none => r
            { st with result := r }
    else st
  let st := { st with forceNotDual := true }
  let st := { st with textDisplay := stripLeadingDotRe st.textDisplay }
  let st :=
    if cfg.eachSceneOnNewPage && st.sceneNumber != 1 then
      pushToken st (createToken (some ([] : Str)) (some 0) (some i) (some (utf8Len text)) "page_break".data)
    else st
  let thisToken := { thisToken with tokenType := "scene_heading".data }
  let nb : Str := (Nat.repr st.sceneNumber).data
  let textForToken := stripLeadingDotRe st.textValid
  -- explicit `#…#` annotation (1335–1358)
  let (st, nb, textForToken) :=
    match sceneNumberCaps st.textValid with
    | none => (st, nb, textForToken)
    | some (g1, g2) =>
      let textForToken := sceneNumberReplaceFirst textForToken
      let st := { st with textDisplay := sceneNumberReplaceFirst st.textDisplay }
      let nb := if (trim g2).isEmpty then nb else trim g2
      match g1 with
      | some tab0 =>
        let tab := trim tab0
        if tab.isEmpty then (st, nb, textForToken)
        else
          match assocGet st.dupScenceNuber tab with
          | some v => (st, v, textForToken)
          | none => ({ st with dupScenceNuber := st.dupScenceNuber ++ [(tab, nb)] }, nb, textForToken)
      | none => (st, nb, textForToken)
  sceneHeadingTail thisToken nb textForToken st

/-- shot-cut bracket opening / closing (lines 1535–1571; only reachable if
the transition regex had more than one capture group). -/
def shotCutOpenClose (tx : Str) (st : PState) : PState :=
  if [braceL, '+'].isPrefixOf tx ∧ ['+', braceR, ' ', '↓'].isSuffixOf tx then
    let structs := match st.lastScenStructureToken with
      | some l => [l]
      | none => []
    { st with shotCut := 1, shotCutStrctTokens := st.shotCutStrctTokens ++ [⟨Frac.zero, structs⟩] }
  else if [braceL, '#'].isPrefixOf tx ∧ ['#', braceR, ' ', '↓'].isSuffixOf tx then
    let structs := (match st.lastScenStructureTokenPre with
      | some l => [l]
      | none => []) ++ (match st.lastScenStructureToken with
      | some l => [l]
      | none => [])
    { st with shotCut := 2, shotCutStrctTokens := st.shotCutStrctTokens ++ [⟨Frac.zero, structs⟩] }
  else if [braceL, '='].isPrefixOf tx ∧ ['=', braceR, ' ', '↓'].isSuffixOf tx then
    { st with shotCut := 3, shotCutStrctTokens := st.shotCutStrctTokens ++ [⟨Frac.zero, []⟩] }
  else if [braceL, '-'].isPrefixOf tx ∧ ['-', braceR, ' ', '↑'].isSuffixOf tx then
    { st with shotCut := 0 }
  else st

/-- transition branch (lines 1526–1583).  The shot-cut condition
`captures.len() > 2 && captures.get(2).is_some()` is statically false for
the one-group transition regex, so `shot_cut_open_close` is dead code. -/
def transitionBranch (i : Nat) (thisToken : Token) (st : PState) : PState :=
  let st :=
    if transitionRegexGroupCount > 2 ∧ transitionCapGet2.isSome then
      shotCutOpenClose (trim (transitionCapGet2.getD [])) st
    else st
  let st := processTitlePageEnd st i
  let thisToken := { thisToken with text := stripTransitionGt st.textDisplay }
  let thisToken := { thisToken with text := processStyleText thisToken.text }
  let thisToken := { thisToken with tokenType := "transition".data }
  pushToken st thisToken

/-- the caret / dual-dialogue section of the character branch
(lines 1593–1669): either open a plain `dialogue_begin` or perform the
dual-dialogue retrofit. -/
def characterDual (cfg : Conf) (thisToken : Token) (textValidL : Str)
    (st : PState) : PState × Token × Str :=
  if textValidL.getLast? = some '^' then
    let pr :=
      if cfg.useDualDialogue ∧ ¬ st.forceNotDual then
        let st := { st with result := { st.result with state := "dual_dialogue".data } }
        let walk := dualWalk (st.result.tokens.length + 1) st.lastCharacterIndex
          st.result.tokens st.result.dualStr false
        let st := { st with result := { st.result with tokens := walk.1, dualStr := walk.2.1 } }
        let st :=
          if walk.2.2 then
            let toks := backWalkBegin (st.result.tokens.length + 1)
              st.result.tokens.length st.result.tokens
            { st with result := { st.result with tokens := toks } }
          else st
        let st :=
          -- `dual_str.as_ref().unwrap()`: at this point the walk always set
          -- a side (the previous character token is still in the list)
          if st.result.dualStr.getD [] = "left".data then
            pushToken st (createToken none none none none "dual_dialogue_begin".data)
          else
            let toks := backWalkEnd (st.result.tokens.length + 1)
              st.result.tokens.length st.result.tokens
            { st with result := { st.result with tokens := toks } }
        (st, { thisToken with dual := st.result.dualStr })
      else
        (pushToken st (createToken none none none none "dialogue_begin".data), thisToken)
    let textValidL := caretEndRemove textValidL
    let st :=
      match caretNoteSplit 'இ' pr.1.textDisplay with
      | some g2 => { pr.1 with textDisplay := g2 }
      | none =>
        match caretNoteSplit '↺' pr.1.textDisplay with
        | some g2 => { pr.1 with textDisplay := g2 }
        | none => { pr.1 with textDisplay := caretEndRemove pr.1.textDisplay }
    (st, pr.2, textValidL)
  else
    (pushToken st (createToken none none none none "dialogue_begin".data), thisToken, textValidL)

/-- the character branch from `force_not_dual = false` through the final
push (lines 1670–1780). -/
def characterTail (cfg : Conf) (text : Str) (thisToken : Token)
    (textValidL : Str) (st : PState) : PState :=
  let st := { st with forceNotDual := false }
  let character := trim (trimCharacterExtension textValidL)
  let st := { st with previousCharacter := some character }
  let thisToken := { thisToken with character := some character }
  let sceneIdx := st.result.properties.scenes.length - 1
  let st :=
    match assocGet st.result.properties.characters character with
    | some values =>
      if sceneIdx ∈ values then st
      else
        { st with result := { st.result with properties := { st.result.properties with
            characters := assocUpdate st.result.properties.characters character (· ++ [sceneIdx]) } } }
    | none =>
      { st with result := { st.result with properties := { st.result.properties with
          characters := st.result.properties.characters ++ [(character, [sceneIdx])] } } }
  let st :=
    let cl := (st.result.properties.characterLines.getD [])
    { st with result := { st.result with properties := { st.result.properties with
        characterLines := some (assocSetNat cl thisToken.line character) } } }
  let st :=
    if st.result.properties.scenes.isEmpty then
      let cfl := st.result.properties.characterFirstLine.getD []
      if (cfl.find? (fun e => e.1 = character)).isSome then st
      else
        let cfl := assocSet cfl character thisToken.line
        let cd := assocSet (st.result.properties.characterDescribe.getD []) character text
        { st with result := { st.result with properties := { st.result.properties with
            characterFirstLine := some cfl, characterDescribe := some cd } } }
    else st
  let st := { st with lastCharacterIndex := st.result.tokens.length }
  let st :=
    match st.lastScenStructureToken with
    | none => st
    | some lastScen =>
      if cfg.dialogueFoldable then
        let cobj : StructToken := .mk textValidL false
          (some ((lastScen.id.getD []) ++ '/' :: (Nat.repr thisToken.line).data)) []
          (some ⟨⟨thisToken.line, 0⟩, ⟨thisToken.line, utf8Len textValidL⟩⟩) 0 false [] []
          false true (if 0 < st.linesLength then st.linesLength - 1 else 0)
          Frac.zero Frac.zero [] Frac.zero
        { st with
          lastScenStructureToken := some (lastScen.pushChild cobj)
          lastChartorStructureToken := some cobj }
      else st
  let st := { st with textDisplay := trim (charAtReplace st.textDisplay) }
  let thisToken := { thisToken with text := st.textDisplay }
  -- `add_dialogue_number_decoration` is a no-op in this implementation
  pushToken st thisToken

/-- character-cue branch (lines 1584–1780). -/
def characterBranch (cfg : Conf) (i : Nat) (text : Str) (thisToken : Token)
    (st : PState) : PState :=
  let st := processTitlePageEnd st i
  let st := { st with result := { st.result with state := "dialogue".data } }
  let thisToken := { thisToken with
    tokenType := "character".data
    takeNumber := some (Int.ofNat st.takeCount) }
  let st := { st with takeCount := st.takeCount + 1 }
  let textValidL := trimCharacterForceSymbol st.textValid
  let (st, thisToken, textValidL) := characterDual cfg thisToken textValidL st
  characterTail cfg text thisToken textValidL st

/-- forced-action branch (lines 1781–1800). -/
def forcedActionBranch (i : Nat) (thisToken : Token) (st : PState) : PState :=
  let st := processTitlePageEnd st i
  let thisToken := { thisToken with tokenType := "action".data }
  let (st, thisToken) :=
    match actionForceCaps st.textDisplay with
    | some (g1, g3) =>
      let thisToken := { thisToken with text := g1 ++ g3 }
      let thisToken := { thisToken with text := processStyleText thisToken.text }
      processActionBlock st thisToken
    | none => (st, thisToken)
  pushToken st thisToken

/-- the action chain (lines 1808–1970): centered, section, page break,
synopsis, lyric, default action. -/
def actionChain (i : Nat) (thisToken : Token) (st : PState) : PState :=
  if centeredIsMatch st.textValid then
    let st := processTitlePageEnd st i
    let thisToken := { thisToken with tokenType := "centered".data }
    let thisToken :=
      match centeredCaps st.textDisplay with
      | some (g1, g2, g3) =>
        let t := trim g1 ++ trim g2 ++ trim g3
        { thisToken with text := processStyleText t }
      | none => thisToken
    pushToken st thisToken
  else if sectionIsMatch st.textValid then
    let st := processTitlePageEnd st i
    let thisToken := { thisToken with tokenType := "section".data }
    let (st, thisToken) :=
      match sectionCaps st.textDisplay with
      | some (g1, g2, g3) =>
        let thisToken := { thisToken with level := some (Int.ofNat g2.length) }
        let thisToken := { thisToken with text := processStyleText (g1 ++ g3) }
        let cobj : StructToken := .mk g3 false none []
          (some ⟨⟨thisToken.line, 0⟩, ⟨thisToken.line, utf8Len st.textValid⟩⟩) g2.length true
          [] [] false false 0 Frac.zero st.playTimeSec [] Frac.zero
        let st := { st with currentDepth := g2.length }
        let st :=
          if st.currentDepth = 1 then
            let cobj := cobj.setId ('/' :: (Nat.repr thisToken.line).data)
            { st with result := { st.result with properties := { st.result.properties with
                structureL := st.result.properties.structureL ++ [cobj] } } }
          else
            match latestSection st (st.currentDepth - 1) with
            | some level =>
              let cobj := cobj.setId ((level.id.getD []) ++ '/' :: (Nat.repr thisToken.line).data)
              attachChildToParent st level.id cobj
            | none =>
              let cobj := cobj.setId ('/' :: (Nat.repr thisToken.line).data)
              { st with result := { st.result with properties := { st.result.properties with
                  structureL := st.result.properties.structureL ++ [cobj] } } }
        (st, thisToken)
      | none => (st, thisToken)
    pushToken st thisToken
  else if pageBreakIsMatch st.textValid then
    let st := processTitlePageEnd st i
    pushToken st { thisToken with tokenType := "page_break".data, text := [] }
  else if synopsisIsMatch st.textValid then
    let st := processTitlePageEnd st i
    let thisToken := { thisToken with tokenType := "synopsis".data }
    let (st, thisToken) :=
      match synopsisCaps st.textDisplay with
      | some (g1, g2) =>
        let thisToken := { thisToken with text := processStyleText (g1 ++ g2) }
        let syn : Synopsis := { synopsis := trim g2, line := thisToken.line }
        let st :=
          if st.currentDepth = 0 then
            { st with lastScenStructureToken :=
                st.lastScenStructureToken.map (·.pushSynopsis syn) }
          else
            match latestSection st st.currentDepth with
            | some level =>
              { st with result := { st.result with properties := { st.result.properties with
                  structureL := replaceFirstWhere (fun p => p.id = level.id)
                    (·.pushSynopsis syn) st.result.properties.structureL } } }
            | none => st
        (st, thisToken)
      | none => (st, thisToken)
    pushToken st thisToken
  else if lyricIsMatch st.textValid then
    let st := processTitlePageEnd st i
    let thisToken := { thisToken with tokenType := "lyric".data }
    let thisToken :=
      match lyricCaps st.textDisplay with
      | some (g1, g3, g4) => { thisToken with text := processStyleText (g1 ++ g3 ++ g4) }
      | none => thisToken
    pushToken st thisToken
  else
    let st := processTitlePageEnd st i
    let thisToken := { thisToken with tokenType := "action".data, text := st.textDisplay }
    let thisToken := { thisToken with text := processStyleText thisToken.text }
    let (st, thisToken) := processActionBlock st thisToken
    pushToken st thisToken

/-- normal-state classification (lines 1275–1971). -/
def normalBranch (cfg : Conf) (i : Nat) (text : Str) (thisToken : Token)
    (isBlockBeginLine : Bool) (st : PState) : PState :=
  if isBlockBeginLine then
    if sceneHeadingIsMatch st.textValid then sceneHeadingBranch cfg i text thisToken st
    else if centeredIsMatch st.textValid then actionChain i thisToken st
    else if transitionIsMatch st.textValid then transitionBranch i thisToken st
    else if characterIsMatch st.textValid then characterBranch cfg i text thisToken st
    else if actionForceIsMatch st.textValid then forcedActionBranch i thisToken st
    else actionChain i thisToken st
  else actionChain i thisToken st

/-- the fall-through of lines 1980–2014 (reachable only for states other
than normal / title_page / dialogue / dual_dialogue, hence never in
practice). -/
def fallThroughStep (i : Nat) (thisToken : Token) (st : PState) : PState :=
  let (st, thisToken) :=
    if thisToken.tokenType.isEmpty then
      if st.result.state = "title_page".data then (st, none)
      else
        let st := processTitlePageEnd st i
        let thisToken := { thisToken with tokenType := "action".data }
        let thisToken := { thisToken with text := processStyleText thisToken.text }
        let (st, thisToken) := processActionBlock st thisToken
        (st, some thisToken)
    else (st, some thisToken)
  match thisToken with
  | none => st
  | some thisToken =>
    let st := { st with lastWasSeparator := false }
    if st.result.state = "ignore".data then st
    else
      let thisToken :=
        if thisToken.tokenType = "scene_heading".data ∨ thisToken.tokenType = "transition".data
        then { thisToken with text := upp thisToken.text }
        else thisToken
      let thisToken :=
        if thisToken.tokenType ≠ "action".data ∧ thisToken.tokenType ≠ "dialogue".data
        then { thisToken with text := trim thisToken.text }
        else thisToken
      let st :=
        match st.noteToken with
        | some nt => pushToken { st with noteToken := none } nt
        | none => st
      if thisToken.ignore then { st with ignoredLastToken := true }
      else pushToken { st with ignoredLastToken := false } thisToken

/-- the part of the loop body after the blank-line pre-processing
(lines 913–2014). -/
def afterPre (cfg : Conf) (i : Nat) (text : Str)
    (emptyBreakLine isBlockEndEmptyLine isBlockBeginLine : Bool) (st : PState) : PState :=
  let thisToken : Token := { Token.empty with
    text := st.textDisplay
    line := i
    start := 0
    endPos := utf8Len text
    playTimeSec := st.playTimeSec }
  if (trim st.textDisplay).isEmpty then
    blankBranch cfg i text thisToken emptyBreakLine isBlockEndEmptyLine st
  else
    let st :=
      if isBlockBeginLine ∧ titlePageIsMatch st.textValid then
        { st with result := { st.result with state := "title_page".data } }
      else st
    if st.result.state = "title_page".data then
      match titlePageBranch cfg i thisToken isBlockBeginLine st with
      | (st, true) => st
      | (st, false) =>
        if st.result.state = "dialogue".data ∨ st.result.state = "dual_dialogue".data then
          dialogueBranch thisToken st
        else if st.result.state = "normal".data then
          normalBranch cfg i text thisToken isBlockBeginLine st
        else fallThroughStep i thisToken st
    else if st.result.state = "dialogue".data ∨ st.result.state = "dual_dialogue".data then
      dialogueBranch thisToken st
    else if st.result.state = "normal".data then
      normalBranch cfg i text thisToken isBlockBeginLine st
    else fallThroughStep i thisToken st

/-- one iteration of the main loop of `parse` (lines 837–2015). -/
def processLine (cfg : Conf) (i : Nat) (text : Str) (st : PState) : PState :=
  let st := { st with textDisplay := [], textValid := [] }
  let matchLineBreak := (trim text).isEmpty ∧ 1 < utf8Len text
  if (trim text).isEmpty then
    let st := { st with textDisplay := text }
    if 0 < st.nestedComments ∨ 0 < st.nestedNotes then
      if 0 < st.nestedNotes ∧ cfg.printNotes ∧ matchLineBreak then
        afterPre cfg i text false false false st
      else st
    else
      if ¬ st.isBlockInner then
        afterPre cfg i text true false false st
      else
        if matchLineBreak ∧ st.result.state ≠ "normal".data then
          afterPre cfg i text false false false st
        else
          afterPre cfg i text false true false { st with isBlockInner := false }
  else
    let parts := splitParts text
    let st := processCommentsAndNotes cfg parts i st
    if (trim st.textValid).isEmpty then
      if (trim st.textDisplay).isEmpty ∧ utf8Len st.textDisplay ≤ 1 then st
      else afterPre cfg i text false false false st
    else
      if ¬ st.isBlockInner then
        afterPre cfg i text false false true { st with isBlockInner := true }
      else afterPre cfg i text false false false st

/-- the main loop. -/
def parseRun (cfg : Conf) : Nat → List Str → PState → PState
  | _, [], st => st
  | i, line :: rest, st => parseRun cfg (i + 1) rest (processLine cfg i line st)

/-! ## Final passes of `parse` -/

/-- shot-cut duration redistribution (lines 2034–2057); it rewrites only
the captured copies held in `shot_cut_strct_tokens`.  `duration == 0.0` is
the zero test on the exact fraction (denominators stay positive). -/
def shotCutRedistribute (e : ShotCutEntry) : ShotCutEntry :=
  if e.duration.num = 0 ∨ e.structs.isEmpty then e
  else
    let avg := e.duration.divNat e.structs.length
    { e with structs := e.structs.map (·.addDurationSec avg) }

/-- stable descending insertion by UTF-8 byte length
(`sort_by(|a, b| b.len().cmp(&a.len()))`). -/
def insertByLenDesc (x : Str) : List Str → List Str
  | [] => [x]
  | y :: tl => if utf8Len y < utf8Len x then x :: y :: tl else y :: insertByLenDesc x tl

def sortByLenDesc (keys : List Str) : List Str :=
  keys.foldl (fun acc k => insertByLenDesc k acc) []

/-- scan `text` from character index `i` for an occurrence of `k` that does
not overlap an interval already in `charMap` (lines 2078–2104). -/
def actionCharScan (text k : Str) (charMap : List (Str × Nat × Nat)) :
    Nat → Nat → Option (Nat × Nat)
  | 0, _ => none
  | fuel + 1, i =>
    if i < text.length then
      match subFind (text.drop i) k with
      | none => none
      | some idx =>
        let start := i + idx
        let stop := start + k.length
        let overlap := charMap.any (fun e => e.2.1 < stop ∧ start < e.2.2)
        if overlap then actionCharScan text k charMap fuel stop
        else some (start, stop)
    else none

/-- the per-key step of the per-action-token character attribution. -/
def actionCharsStep (lastSceneIdx : Nat)
    (acc : List (Str × List Nat) × Token × List (Str × Nat × Nat)) (k : Str) :
    List (Str × List Nat) × Token × List (Str × Nat × Nat) :=
  let (characters, token, charMap) := acc
  match actionCharScan token.text k charMap (token.text.length + 1) 0 with
  | none => (characters, token, charMap)
  | some (start, stop) =>
    let charMap := charMap ++ [(k, start, stop)]
    let characters := assocUpdate characters k
      (fun v => if lastSceneIdx ∈ v then v else v ++ [lastSceneIdx])
    let ca := some ((token.charactersAction.getD []) ++ [k])
    let token := { token with charactersAction := ca }
    (characters, token, charMap)

/-- per-action-token character attribution (lines 2070–2122). -/
def actionCharsToken (characters : List (Str × List Nat)) (lastSceneIdx : Nat)
    (token : Token) : List (Str × List Nat) × Token :=
  if token.text.isEmpty then (characters, token)
  else
    let sortedKeys := sortByLenDesc (characters.map (·.1))
    sortedKeys.foldl (actionCharsStep lastSceneIdx)
      (characters, token, ([] : List (Str × Nat × Nat)))
    |> fun (characters, token, _) => (characters, token)

/-- the per-token step of the action-prose character pass. -/
def actionCharsPassStep (acc : List Token × List (Str × List Nat) × Int)
    (token : Token) : List Token × List (Str × List Nat) × Int :=
  let (tokens, characters, lastSceneIdx) := acc
  if token.tokenType = "scene_heading".data then
    (tokens ++ [token], characters, lastSceneIdx + 1)
  else if 0 ≤ lastSceneIdx ∧ token.tokenType = "action".data then
    let (characters, token) := actionCharsToken characters lastSceneIdx.toNat token
    (tokens ++ [token], characters, lastSceneIdx)
  else (tokens ++ [token], characters, lastSceneIdx)

/-- the action-prose character pass (lines 2064–2125). -/
def actionCharactersPass (st : PState) : PState :=
  let (tokens, characters, _) :=
    st.result.tokens.foldl actionCharsPassStep
      ([], st.result.properties.characters, (-1 : Int))
  { st with result := { st.result with
      tokens := tokens
      properties := { st.result.properties with characters := characters } } }

/-- ascending insertion sort on scene indices. -/
def insertAsc (x : Nat) : List Nat → List Nat
  | [] => [x]
  | y :: tl => if x < y then x :: y :: tl else y :: insertAsc x tl

/-- the `characters → character_scene_number` conversion (lines 2128–2152);
the `HashSet` is embedded as an insertion-ordered duplicate-free list. -/
def characterSceneNumberPass (st : PState) : PState :=
  let conv := st.result.properties.characters.map fun (k, v) =>
    let sortedIndices := v.foldl (fun acc i => insertAsc i acc) []
    let nums := sortedIndices.foldl
      (fun acc idx =>
        match st.result.properties.scenes.get? idx with
        | some scene => if scene.number ∈ acc then acc else acc ++ [scene.number]
        | none => acc)
      ([] : List Str)
    (k, nums)
  { st with result := { st.result with properties :=
      { st.result.properties with characterSceneNumber := some conv } } }

/-- `ScriptToken::clean_text`. -/
def cleanText (t : Str) : Str :=
  let t := t.filter (fun c => c ≠ '*' ∧ c ≠ '_')
  let t := replaceAll t "[[".data []
  let t := replaceAll t "]]".data []
  let t := replaceAll t "/*".data []
  let t := replaceAll t "*/".data []
  trim t

/-- `ScriptToken::to_html`. -/
def toHtml (tok : Token) : Str :=
  let cleaned := cleanText tok.text
  if tok.tokenType = "scene_heading".data then
    "<div class=\"scene-heading\">".data ++ cleaned ++ "</div>".data
  else if tok.tokenType = "character".data then
    "<div class=\"character\">".data ++ cleaned ++ "</div>".data
  else if tok.tokenType = "dialogue".data then
    "<div class=\"dialogue\">".data ++ cleaned ++ "</div>".data
  else if tok.tokenType = "parenthetical".data then
    "<div class=\"parenthetical\">".data ++ cleaned ++ "</div>".data
  else if tok.tokenType = "action".data then
    "<div class=\"action\">".data ++ cleaned ++ "</div>".data
  else
    "<div class=\"fountain-".data ++ tok.tokenType ++ "\">".data ++ cleaned ++ "</div>".data

/-- `generate_html`. -/
def generateHtmlStr (tokens : List Token) : Str :=
  tokens.foldl (fun acc tok => acc ++ toHtml tok ++ ['\n']) []

/-- `generate_title_html` (token metadata is never set by the parser, so
the search never finds a match and the result is empty). -/
def generateTitleHtmlStr (titleKeys : List Str) (tokens : List Token) : Str :=
  titleKeys.foldl
    (fun acc key =>
      match tokens.find? (fun t =>
        match t.metadata with
        | some m => (assocGet m "key".data) = some key
        | none => false) with
      | some tok => acc ++ toHtml tok ++ ['\n']
      | none => acc)
    []

/-- the post-loop stages of `parse` (lines 2017–2158): close a truncated
dialogue block, flush pending outline notes, final scene length, shot-cut
redistribution, scene-number variables, action-prose characters,
`character_scene_number`, optional HTML. -/
def parseFinish (gh : Bool) (st : PState) : PState :=
    let st :=
      if st.result.state = "dialogue".data then
        pushToken st (createToken none none none none "dialogue_end".data)
      else st
    let st :=
      if st.result.state = "dual_dialogue".data then
        pushToken st (createToken none none none none "dual_dialogue_end".data)
      else st
    let st :=
      if 0 < st.needProcessOutlineNote then
        { processInlineNotes st with needProcessOutlineNote := 0 }
      else st
    let st := updatePreviousSceneLength st
    let st := { st with shotCutStrctTokens := st.shotCutStrctTokens.map shotCutRedistribute }
    let st := { st with result := { st.result with properties := { st.result.properties with
        sceneNumberVars := some (st.dupScenceNuber.map (·.1)) } } }
    let st := actionCharactersPass st
    let st := characterSceneNumberPass st
    let st :=
      if gh then
        { st with result := { st.result with
            scriptHtml := some (generateHtmlStr st.result.tokens)
            titleHtml := some (generateTitleHtmlStr st.result.properties.titleKeys
              st.result.tokens) } }
      else st
    st

/-- `FountainParser::parse`.  Returns the final parser state together with
the returned `ParseOutput` clone. -/
def parse (st : PState) (script : Str) (cfg : Conf) (generateHtml : Bool) :
    PState × ParseOutput :=
  let st := { st with result := ParseOutput.new }
  if script.isEmpty then (st, st.result)
  else
    let st := { st with result := { st.result with
      dialSecPerChar := cfg.dialSecPerChar
      dialSecPerPuncShort := cfg.dialSecPerPuncShort
      dialSecPerPuncLong := cfg.dialSecPerPuncLong
      actionSecPerChar := cfg.actionSecPerChar } }
    -- `parse_time` start stamp: impure wall clock, embedded as 0
    let st := { st with newLineLength := if hasSub script "\r\n".data then 2 else 1 }
    let lines := splitLines script
    let st := { st with result := { st.result with state := "normal".data, dualStr := none } }
    let st := { st with
      sceneNumber := 1
      nestedComments := 0
      nestedNotes := 0
      currentOutlineNoteText := []
      currentOutlineNoteLinenum := []
      textDisplay := []
      textValid := []
      ignoredLastToken := false
      lastChartorStructureToken := none
      lastTitlePageToken := none
      lastScenStructureToken := none
      lastScenStructureTokenPre := none
      lastCharacterIndex := 0
      previousCharacter := none
      parentheticalOpen := false
      fontTitle := false
      lastIsBlankTitle := false
      playTimeSec := Frac.zero
      lastWasSeparator := false
      shotCut := 0
      shotCutStrctTokens := []
      dupScenceNuber := []
      scenceNumbers := []
      lengthActionSoFar := Frac.zero
      lengthDialogueSoFar := Frac.zero
      forceNotDual := true
      isBlockInner := false
      noteToken := none
      needProcessOutlineNote := 0 }
    -- NOTE: `current_depth`, `take_count`, `lines_length`, `current_cursor`
    -- are instance fields that `parse` does NOT re-initialise.
    let st := parseFinish generateHtml (parseRun cfg 0 lines st)
    -- `parse_time` end stamp: impure wall clock, embedded as 0
    (st, st.result)


/-! ## The inline style re-lexer (`docx/docx_maker.rs`)

`text2` together with `reset_format` / `global_stash` / `global_pop` /
`left_stash` / `left_pop` / `right_stash` / `right_pop`.  The run
properties are embedded as the renderer-visible choice of base run style
(`run_normal` / `run_bold` / `run_italic` / `run_bold_italic` /
`run_notes`), underline, colour, size and line-break flag; the numeric
character-spacing passthrough is omitted. -/

/-- `adapter/mod.rs` `StyleStash`. -/
structure StyleStash where
  boldItalic : Bool
  bold : Bool
  italic : Bool
  underline : Bool
  overrideColor : Option Str
  italicGlobal : Bool
  italicDynamic : Bool
  currentColor : Str
deriving DecidableEq, Repr

/-- `StyleStash::default()`. -/
def StyleStash.default : StyleStash where
  boldItalic := false
  bold := false
  italic := false
  underline := false
  overrideColor := none
  italicGlobal := false
  italicDynamic := false
  currentColor := "#000000".data

/-- a footnote under construction (`CurrentNote` / `Note`). -/
structure NoteN where
  no : Nat
  text : List Str
deriving DecidableEq, Repr

/-- the slice of `DocxContext` (and its `DocxOptions`) that the re-lexer
reads and writes. -/
structure DocxState where
  formatState : StyleStash
  italicGlobal : Bool
  italicDynamic : Bool
  stashStyleGlobalColumn : Option StyleStash
  stashStyleLeftColumn : Option StyleStash
  stashStyleRightColumn : Option StyleStash
  chinaFormat : Int
  cacheTriangle : Bool
  forceNoteOrig : Bool
  currentNotePageIdx : Int
  currentNote : NoteN
  notesLen : Nat
  -- print-profile values read by `text2`:
  fontSize : Nat
  noteFontSize : Nat
  noteColor : Str
  noteItalic : Bool
deriving DecidableEq, Repr

/-- `DocxContext::new` with default options (`PrintProfile::default()`:
font size 12, note font size 9, note colour `#888888`, note italic). -/
def DocxState.new : DocxState where
  formatState := StyleStash.default
  italicGlobal := false
  italicDynamic := false
  stashStyleGlobalColumn := none
  stashStyleLeftColumn := none
  stashStyleRightColumn := none
  chinaFormat := 0
  cacheTriangle := false
  forceNoteOrig := false
  currentNotePageIdx := -1
  currentNote := ⟨0, []⟩
  notesLen := 0
  fontSize := 12
  noteFontSize := 9
  noteColor := "#888888".data
  noteItalic := true

/-- `reset_format`. -/
def resetFormat (st : DocxState) : DocxState :=
  { st with formatState := StyleStash.default, italicGlobal := false, italicDynamic := false }

/-- the `StyleStash` snapshot every stash function saves. -/
def snapshotStash (st : DocxState) : StyleStash :=
  { boldItalic := st.formatState.boldItalic
    bold := st.formatState.bold
    italic := st.formatState.italic
    underline := st.formatState.underline
    overrideColor := st.formatState.overrideColor
    italicGlobal := st.italicGlobal
    italicDynamic := st.italicDynamic
    currentColor := st.formatState.currentColor }

/-- `global_stash`. -/
def globalStash (st : DocxState) : DocxState :=
  resetFormat { st with stashStyleGlobalColumn := some (snapshotStash st) }

/-- restore from a stash slot (shared body of the three `*_pop`s). -/
def popFrom (st : DocxState) (slot : Option StyleStash) : DocxState :=
  match slot with
  | none => st
  | some stash =>
    { st with
      formatState := { st.formatState with
        boldItalic := stash.boldItalic
        bold := stash.bold
        italic := stash.italic
        underline := stash.underline
        overrideColor := stash.overrideColor
        currentColor := stash.currentColor }
      italicGlobal := stash.italicGlobal
      italicDynamic := stash.italicDynamic }

/-- `global_pop`. -/
def globalPop (st : DocxState) : DocxState := popFrom st st.stashStyleGlobalColumn

/-- `left_stash`. -/
def leftStash (st : DocxState) : DocxState :=
  resetFormat { st with stashStyleLeftColumn := some (snapshotStash st) }

/-- `left_pop`. -/
def leftPop (st : DocxState) : DocxState := popFrom st st.stashStyleLeftColumn

/-- `right_stash`. -/
def rightStash (st : DocxState) : DocxState :=
  resetFormat { st with stashStyleRightColumn := some (snapshotStash st) }

/-- `right_pop`. -/
def rightPop (st : DocxState) : DocxState := popFrom st st.stashStyleRightColumn

/-- which predefined run style a drawn text run is based on
(lines 1611–1630). -/
inductive RunKind where
  | normal
  | boldR
  | italicR
  | boldItalicR
  | notesR
  | footnoteRef
deriving DecidableEq, Repr

/-- one emitted `TextRun`. -/
structure TextRun where
  text : Str
  kind : RunKind
  size : Nat
  underline : Bool
  color : Option Str
  breakBefore : Bool
deriving DecidableEq, Repr

/-- the `options: &HashMap<String, String>` argument of `text2`, restricted
to the keys it reads (`fontSize` already parsed; the numeric
`characterSpacing` passthrough is omitted). -/
structure TextOpts where
  color : Option Str
  fontSize : Option Nat
  boldOpt : Bool
  italicOpt : Bool

def TextOpts.empty : TextOpts := ⟨none, none, false, false⟩

/-- `str::split('\n')` (keeping empty pieces). -/
def splitOnNl (s : Str) : List Str :=
  match s with
  | [] => [[]]
  | c :: tl =>
    if c = '\n' then [] :: splitOnNl tl
    else
      match splitOnNl tl with
      | [] => [[c]]
      | hd :: rest => (c :: hd) :: rest

/-- split an element into maximal runs of non-special characters and
single special characters (lines 1236–1283). -/
def splitSpecial : Str → List Str
  | [] => []
  | c :: tl =>
    if hasChar chAll c then [c] :: splitSpecial tl
    else
      match splitSpecial tl with
      | run :: rest =>
        match run with
        | d :: _ => if hasChar chAll d then [c] :: run :: rest else (c :: run) :: rest
        | [] => [c] :: rest
      | [] => [[c]]

/-- collect a piece of footnote text (`if !pushed { push } else { last += }`). -/
def noteCollect (st : DocxState) (pushed : Bool) (elem : Str) : DocxState × Bool :=
  if ¬ pushed then
    ({ st with currentNote := { st.currentNote with text := st.currentNote.text ++ [elem] } }, true)
  else
    ({ st with currentNote :=
        { st.currentNote with text := listUpdateLast (· ++ elem) st.currentNote.text } }, pushed)

/-- accumulator of the `split_for_formatting` fold. -/
structure T2Acc where
  st : DocxState
  color : Str
  pushed : Bool
  currentIndex : Nat
  currentLineNotes : Option (List NoteN)
  notesPage : Option (List (List (List NoteN)))
  runs : List TextRun

/-- one element step of `text2` (lines 1298–1696). -/
def text2Elem (opts : TextOpts) (catchNotes : Bool) (acc : T2Acc) (elem : Str) : T2Acc :=
  let st := acc.st
  if elem = chGlobalClean then
    let st := resetFormat st
    let st := { st with formatState := { st.formatState with overrideColor := none } }
    { acc with st := st, color := opts.color.getD "#000000".data }
  else if elem = chGlobalStash then
    let st := globalStash st
    let st := { st with formatState := { st.formatState with overrideColor := none } }
    { acc with st := st, color := opts.color.getD "#000000".data }
  else if elem = chGlobalPop then
    { acc with st := globalPop st }
  else if elem = chLeftStash then
    let st := leftStash st
    let st := { st with formatState := { st.formatState with overrideColor := none } }
    { acc with st := st, color := opts.color.getD "#000000".data }
  else if elem = chLeftPop then
    { acc with st := leftPop st }
  else if elem = chRightStash then
    let st := rightStash st
    let st := { st with formatState := { st.formatState with overrideColor := none } }
    { acc with st := st, color := opts.color.getD "#000000".data }
  else if elem = chRightPop then
    { acc with st := rightPop st }
  else if elem = chItalicGlobalBegin then
    { acc with st := { st with
        italicDynamic := st.formatState.italic
        italicGlobal := true
        formatState := { st.formatState with italic := true } } }
  else if elem = chItalicGlobalEnd then
    { acc with st := { st with
        formatState := { st.formatState with italic := st.italicDynamic }
        italicGlobal := false } }
  else if elem = chBoldItalic then
    if catchNotes ∧ -1 < st.currentNotePageIdx then
      let (st, pushed) := noteCollect st acc.pushed elem
      { acc with st := st, pushed := pushed }
    else
      { acc with st := { st with formatState :=
          { st.formatState with boldItalic := ¬ st.formatState.boldItalic } } }
  else if elem = chBold then
    if catchNotes ∧ -1 < st.currentNotePageIdx then
      let (st, pushed) := noteCollect st acc.pushed elem
      { acc with st := st, pushed := pushed }
    else
      { acc with st := { st with formatState :=
          { st.formatState with bold := ¬ st.formatState.bold } } }
  else if elem = chItalic then
    if catchNotes ∧ -1 < st.currentNotePageIdx then
      let (st, pushed) := noteCollect st acc.pushed elem
      { acc with st := st, pushed := pushed }
    else
      if st.italicGlobal then
        { acc with st := { st with italicDynamic := ¬ st.italicDynamic } }
      else
        { acc with st := { st with formatState :=
            { st.formatState with italic := ¬ st.formatState.italic } } }
  else if elem = chUnderline then
    if catchNotes ∧ -1 < st.currentNotePageIdx then
      let (st, pushed) := noteCollect st acc.pushed elem
      { acc with st := st, pushed := pushed }
    else
      { acc with st := { st with formatState :=
          { st.formatState with underline := ¬ st.formatState.underline } } }
  else if elem = chNoteEnd then
    let acc :=
      if catchNotes ∧ ¬ st.forceNoteOrig then
        let cln := acc.currentLineNotes.map (fun l =>
          listUpdateLast (fun n => { n with text := st.currentNote.text }) l)
        let np := acc.notesPage.map (fun pages =>
          if 0 ≤ st.currentNotePageIdx ∧ st.currentNotePageIdx < (pages.length : Int) then
            pages.set st.currentNotePageIdx.toNat
              (listUpdateLast (listUpdateLast fun n => { n with text := st.currentNote.text })
                (pages.getD st.currentNotePageIdx.toNat []))
          else pages)
        { acc with currentLineNotes := cln, notesPage := np }
      else acc
    let st := { acc.st with
      currentNotePageIdx := -1
      forceNoteOrig := false
      formatState := { acc.st.formatState with overrideColor := none } }
    { acc with st := st, color := opts.color.getD "#000000".data }
  else if elem = chNoteBeginExt then
    { acc with
      st := { st with
        formatState := { st.formatState with overrideColor := some st.noteColor }
        forceNoteOrig := true }
      color := st.noteColor }
  else if elem = chNoteBegin then
    let st := { st with formatState :=
      { st.formatState with overrideColor := some st.noteColor } }
    let acc := { acc with st := st, color := st.noteColor }
    if catchNotes then
      let st := { acc.st with notesLen := acc.st.notesLen + 1 }
      let st := { st with
        currentNotePageIdx := 0
        currentNote := { no := st.notesLen, text := [[]] } }
      let np := acc.notesPage.map (fun pages =>
        let pages := if pages.length ≤ 0 then pages ++ [[]] else pages
        let pages := if (pages.getD 0 []).isEmpty then pages.set 0 [[]] else pages
        pages.set 0 (listUpdateLast (· ++ [({ no := st.notesLen, text := [[]] } : NoteN)])
          (pages.getD 0 [])))
      let cln := acc.currentLineNotes.map (· ++ [({ no := st.notesLen, text := [[]] } : NoteN)])
      let fref : TextRun := { text := [], kind := .footnoteRef, size := st.noteFontSize, underline := false, color := none, breakBefore := false }
      let runs := acc.runs ++ [fref]
      { acc with st := st, pushed := true, notesPage := np, currentLineNotes := cln, runs := runs }
    else acc
  else if ¬ elem.isEmpty then
    let (acc, elemToDraw, draw) :=
      if catchNotes then
        if 0 ≤ st.currentNotePageIdx then
          let (st, pushed) := noteCollect st acc.pushed elem
          let acc := { acc with st := st, pushed := pushed }
          if ¬ acc.st.forceNoteOrig then (acc, ([] : Str), false)
          else (acc, elem, true)
        else
          if st.cacheTriangle then
            ({ acc with st := { st with cacheTriangle := false } }, '△' :: elem, true)
          else (acc, elem, true)
      else (acc, elem, true)
    if draw then
      let st := acc.st
      let fontSize := opts.fontSize.getD st.fontSize
      let fontSize := if st.formatState.overrideColor.isSome then st.noteFontSize else fontSize
      let kind :=
        if st.formatState.boldItalic then RunKind.boldItalicR
        else if st.formatState.bold || opts.boldOpt then RunKind.boldR
        else if st.formatState.italic || st.italicGlobal || st.italicDynamic || opts.italicOpt
          then RunKind.italicR
        else if st.formatState.overrideColor.isSome then RunKind.notesR
        else RunKind.normal
      let underline := st.formatState.underline
      let color :=
        if st.forceNoteOrig then st.noteColor
        else match st.formatState.overrideColor with
          | some oc => oc
          | none => acc.color
      let runColor := if ¬ color.isEmpty ∧ color ≠ "#000000".data then some color else none
      let pieces := splitOnNl elemToDraw
      let mkRun : Nat × Str → TextRun := fun (idx, piece) =>
        { text := piece, kind := kind, size := fontSize, underline := underline, color := runColor, breakBefore := idx ≠ 0 }
      let runs := acc.runs ++ pieces.enum.map mkRun
      { acc with color := color, runs := runs,
                 currentIndex := acc.currentIndex + utf8Len elem }
    else { acc with currentIndex := acc.currentIndex + utf8Len elem }
  else { acc with currentIndex := acc.currentIndex + utf8Len elem }

/-- `text2` (lines 1075–1703), on the same state/collector slice. -/
def text2 (st : DocxState) (text : Str) (opts : TextOpts)
    (currentLineNotes : Option (List NoteN))
    (notesPage : Option (List (List (List NoteN)))) :
    DocxState × List TextRun × Option (List NoteN) × Option (List (List (List NoteN))) :=
  let color := opts.color.getD "#000000".data
  let color := match st.formatState.overrideColor with
    | some oc => oc
    | none => color
  let st := { st with formatState := { st.formatState with currentColor := color } }
  let catchNotes := currentLineNotes.isSome ∧ notesPage.isSome
  let (st, text) :=
    if catchNotes then
      if 0 ≤ st.currentNotePageIdx then
        if (st.chinaFormat = 1 ∨ st.chinaFormat = 3) ∧ text.head? = some '△' then
          ({ st with cacheTriangle := true }, text.drop 1)
        else (st, text)
      else ({ st with cacheTriangle := false }, text)
    else (st, text)
  let text :=
    if (st.chinaFormat = 1 ∨ st.chinaFormat = 3) ∧ text.head? = some '△' ∧ st.forceNoteOrig
    then text.drop 1 else text
  let text :=
    if st.noteItalic then
      let text := replaceAll text chNoteBeginExt (chItalic ++ chNoteBeginExt)
      let text := replaceAll text chNoteBegin (chItalic ++ chNoteBegin)
      replaceAll text chNoteEnd (chNoteEnd ++ chItalic)
    else text
  -- the `links` vector is always empty (its population is commented out),
  -- so `split_for_formatting` starts as the single whole text
  let elems := splitSpecial text
  let acc := elems.foldl (text2Elem opts catchNotes)
    { st := st, color := color, pushed := false, currentIndex := 0,
      currentLineNotes := currentLineNotes, notesPage := notesPage, runs := [] }
  (acc.st, acc.runs, acc.currentLineNotes, acc.notesPage)

/-! ## Concrete runs used by the claim theorems -/

/-- C1 input: scene heading, John/Hello, blank, Jane^/Hi. -/
def c1Run : PState × ParseOutput :=
  parse PState.new "INT. A - DAY\n\nJOHN\nHello\n\nJANE^\nHi".data Conf.default false

/-- C2 input: a forced scene heading with an explicit number annotation. -/
def c2Run : PState × ParseOutput :=
  parse PState.new ".INT. HOUSE - DAY #1#".data Conf.default false

/-- C3 counterexample input: a bare dialogue block. -/
def c3Run : PState × ParseOutput :=
  parse PState.new "JOHN\nHi".data Conf.default false

/-- the four token types that `parse` synthesises via `create_token` with no
line argument (they get `line = 0`). -/
def synthBeginEndTypes : List Str :=
  ["dialogue_begin".data, "dual_dialogue_begin".data,
   "dialogue_end".data, "dual_dialogue_end".data]

/-- C4 input: a `{+…+} ↓` shot-cut opener, three further scenes with one
action line each, then the `{-…-} ↑` closer. -/
def c4Input : Str :=
  "INT. A - DAY\n\nX.\n\n> \x7b+A+\x7d ↓\n\nINT. B - DAY\n\nX.\n\nINT. C - DAY\n\nX.\n\nINT. D - DAY\n\nX.\n\n> \x7b-B-\x7d ↑".data

def c4Run : PState × ParseOutput := parse PState.new c4Input Conf.default false

/-- C5 input: two scene headings both annotated `#1#`. -/
def c5Run : PState × ParseOutput :=
  parse PState.new "INT. A - DAY #1#\n\nINT. B - DAY #1#".data Conf.default false

/-- C6 input: the spec's sentinel stream
`global-stash, bold, text, bold, global-pop, text`. -/
def c6Run : DocxState × List TextRun × Option (List NoteN) × Option (List (List (List NoteN))) :=
  text2 DocxState.new "↬↭bold text↭↫rest".data TextOpts.empty none none

/-- the single plain run that `text2` actually produces for the C6 input. -/
def c6PlainRun : TextRun :=
  { text := "↬↭bold text↭↫rest".data, kind := .normal, size := 12,
    underline := false, color := none, breakBefore := false }

/-- C9: parse the same document twice on one instance, and once fresh. -/
def c9RunA : PState × ParseOutput := parse PState.new "JOHN\nHi".data Conf.default false
def c9RunB : PState × ParseOutput := parse c9RunA.1 "JOHN\nHi".data Conf.default false

/-! ## The token line-order invariant

`parse` pushes every per-line token with `line = i` for the loop index `i`,
which only grows; the four synthetic begin/end types are pushed with
`line = 0` and are the only out-of-order tokens.  `TokensInv n ts` states
that every token's line is at most `n` and that the non-synthetic tokens
appear in non-decreasing line order; `SInv` adds the (never written)
`noteToken` field.  All mutations of already-emitted tokens
(`dualWalk`, the backward walks, `actionCharactersPass`) preserve every
token's `(line, synthetic?)` projection or truncate the list, so the
invariant survives them. -/

/-- does the token count for the line-order property (i.e. is it not one of
the four synthetic begin/end types)? -/
def goodTok (t : Token) : Bool := decide (t.tokenType ∉ synthBeginEndTypes)

/-- the data of a token that the line-order invariant depends on. -/
def projTok (t : Token) : Nat × Bool := (t.line, goodTok t)

/-- every line at most `n`; non-synthetic tokens in non-decreasing line
order. -/
def TokensInv (n : Nat) (ts : List Token) : Prop :=
  (∀ t ∈ ts, t.line ≤ n) ∧
  List.Pairwise (fun a b => a.line ≤ b.line) (ts.filter goodTok)

/-- the loop invariant on the full parser state. -/
def SInv (n : Nat) (st : PState) : Prop :=
  TokensInv n st.result.tokens ∧ st.noteToken = none

/-! ### List-level lemmas about the invariant -/

theorem tokensInv_nil (n : Nat) : TokensInv n [] :=
  ⟨fun _ ht => absurd ht (List.not_mem_nil _), List.Pairwise.nil⟩

theorem tokensInv_mono {n m : Nat} {ts : List Token} (h : TokensInv n ts)
    (hnm : n ≤ m) : TokensInv m ts :=
  ⟨fun t ht => le_trans (h.1 t ht) hnm, h.2⟩

theorem tokensInv_push {n : Nat} {ts : List Token} {t : Token}
    (h : TokensInv n ts) (h1 : t.line ≤ n)
    (h2 : goodTok t = true → t.line = n) : TokensInv n (ts ++ [t]) := by
  constructor
  · intro u hu
    rcases List.mem_append.1 hu with hu | hu
    · exact h.1 u hu
    · rw [List.mem_singleton.1 hu]; exact h1
  · rw [List.filter_append]
    by_cases hg : goodTok t = true
    · rw [List.pairwise_append]
      refine ⟨h.2, by simp [List.filter_cons, hg], ?_⟩
      intro a ha b hb
      simp only [List.filter_cons, hg, if_true] at hb
      rcases List.mem_singleton.1 (by simpa using hb) with rfl
      exact (h2 hg) ▸ h.1 a (List.mem_of_mem_filter ha)
    · have : List.filter goodTok [t] = [] := by
        simp [List.filter_cons, hg]
      rw [this, List.append_nil]
      exact h.2

theorem tokensInv_take {n : Nat} {ts : List Token} (h : TokensInv n ts)
    (k : Nat) : TokensInv n (ts.take k) := by
  constructor
  · intro t ht; exact h.1 t (List.take_subset k ts ht)
  · exact List.Pairwise.sublist (List.Sublist.filter goodTok (List.take_sublist k ts)) h.2

theorem map_line_eq_proj (l : List Token) :
    l.map Token.line = (l.map projTok).map Prod.fst := by
  rw [List.map_map]; rfl

theorem filter_map_line (ts : List Token) :
    (ts.filter goodTok).map Token.line =
      ((ts.map projTok).filter (fun p => p.2)).map Prod.fst := by
  induction ts with
  | nil => rfl
  | cons a tl ih =>
    by_cases hg : goodTok a = true <;>
      simp [List.filter_cons, projTok, hg, ih]

theorem pairwise_line_iff (ts : List Token) :
    List.Pairwise (fun a b => a.line ≤ b.line) ts ↔
      List.Pairwise (fun a b => a ≤ b) (ts.map Token.line) :=
  (List.pairwise_map).symm

theorem tokensInv_proj_eq {ts ts2 : List Token} {n : Nat}
    (hp : ts.map projTok = ts2.map projTok) (h : TokensInv n ts) :
    TokensInv n ts2 := by
  constructor
  · intro t ht
    have h1 : t.line ∈ ts2.map Token.line := List.mem_map_of_mem Token.line ht
    rw [map_line_eq_proj, ← hp, ← map_line_eq_proj] at h1
    rcases List.mem_map.1 h1 with ⟨u, hu, he⟩
    exact he ▸ h.1 u hu
  · have h2 := h.2
    rw [pairwise_line_iff, filter_map_line] at h2 ⊢
    rw [← hp]
    exact h2

theorem list_set_self {α : Type} : ∀ (l : List α) (k : Nat) (a : α),
    l.get? k = some a → l.set k a = l := by
  intro l
  induction l with
  | nil => intro k a h; cases h
  | cons x tl ih =>
    intro k a h
    cases k with
    | zero =>
      simp only [List.get?] at h
      cases h
      rfl
    | succ k =>
      simp only [List.get?] at h
      simp [List.set, ih k a h]

theorem map_set_eq {α β : Type} (l : List α) (f : α → β) (k : Nat) (a b : α)
    (hk : l.get? k = some a) (hb : f b = f a) :
    (l.set k b).map f = l.map f := by
  induction l generalizing k with
  | nil => rfl
  | cons x tl ih =>
    cases k with
    | zero =>
      simp only [List.get?] at hk
      cases hk
      simp [List.set, hb]
    | succ k =>
      simp only [List.get?] at hk
      simp [List.set, ih k hk]

/-! ### The token-mutating walks preserve the invariant -/

theorem dualWalk_proj (fuel : Nat) : ∀ (idx : Nat) (tokens : List Token)
    (d : Option Str) (m : Bool),
    ((dualWalk fuel idx tokens d m).1).map projTok = tokens.map projTok := by
  induction fuel with
  | zero => intro idx tokens d m; rfl
  | succ fuel ih =>
    intro idx tokens d m
    unfold dualWalk
    cases hg : tokens.get? idx with
    | none => rfl
    | some tok =>
      by_cases h1 : tok.tokenType ∈ dialogTypes
      · simp only [h1, if_true]
        by_cases h2 : tok.dual = none ∨ tok.dual = some []
        · simp only [h2, if_true]
          rw [ih]
          exact map_set_eq tokens projTok idx tok _ hg rfl
        · simp only [h2, if_false]
          by_cases h3 : tok.dual = some "left".data
          · simp only [h3, if_true]; exact ih _ _ _ _
          · simp only [h3, if_false]; exact ih _ _ _ _
      · simp only [h1, if_false]

theorem backWalkBegin_inv (fuel : Nat) {n : Nat} : ∀ (idx : Nat)
    (ts : List Token), TokensInv n ts → TokensInv n (backWalkBegin fuel idx ts) := by
  induction fuel with
  | zero => intro idx ts h; exact h
  | succ fuel ih =>
    intro idx ts h
    unfold backWalkBegin
    by_cases h0 : idx = 0
    · simp only [h0, if_true]; exact h
    · simp only [h0, if_false]
      cases hg : ts.get? (idx - 1) with
      | none => exact h
      | some tok =>
        by_cases h1 : tok.tokenType = "dialogue_end".data
        · simp only [h1, if_true]
          exact ih _ _ (tokensInv_take h _)
        · simp only [h1, if_false]
          by_cases h2 : tok.tokenType ∈ backSkipTypes
          · simp only [h2, if_true]; exact ih _ _ h
          · simp only [h2, if_false]
            by_cases h3 : tok.tokenType = "dialogue_begin".data
            · simp only [h3, if_true]
              refine tokensInv_proj_eq ?_ h
              refine (map_set_eq ts projTok (idx - 1) tok _ hg ?_).symm
              simp [projTok, goodTok, h3, synthBeginEndTypes]
            · simp only [h3, if_false]; exact h

theorem backWalkEnd_inv (fuel : Nat) {n : Nat} : ∀ (idx : Nat)
    (ts : List Token), TokensInv n ts → TokensInv n (backWalkEnd fuel idx ts) := by
  induction fuel with
  | zero => intro idx ts h; exact h
  | succ fuel ih =>
    intro idx ts h
    unfold backWalkEnd
    by_cases h0 : idx = 0
    · simp only [h0, if_true]; exact h
    · simp only [h0, if_false]
      cases hg : ts.get? (idx - 1) with
      | none => exact h
      | some tok =>
        by_cases h1 : tok.tokenType = "dual_dialogue_end".data
        · simp only [h1, if_true]
          exact ih _ _ (tokensInv_take h _)
        · simp only [h1, if_false]
          by_cases h2 : tok.tokenType ∈ backSkipTypes
          · simp only [h2, if_true]; exact ih _ _ h
          · simp only [h2, if_false]; exact h

/-! ### Invariant preservation through the primitive state operations -/

theorem sinv_mono {n m : Nat} {st : PState} (h : SInv n st) (hnm : n ≤ m) :
    SInv m st :=
  ⟨tokensInv_mono h.1 hnm, h.2⟩

theorem sinv_pushToken {n : Nat} {st : PState} {t : Token} (h : SInv n st)
    (h1 : t.line ≤ n) (h2 : goodTok t = true → t.line = n) :
    SInv n (pushToken st t) :=
  ⟨tokensInv_push h.1 h1 h2, h.2⟩

theorem sinv_pushLine {n : Nat} {st : PState} {t : Token} (h : SInv n st)
    (hl : t.line = n) : SInv n (pushToken st t) :=
  sinv_pushToken h (le_of_eq hl) (fun _ => hl)

theorem sinv_pushSynth {n : Nat} {st : PState} {t : Token} (h : SInv n st)
    (hl : t.line ≤ n) (hg : goodTok t = false) : SInv n (pushToken st t) :=
  sinv_pushToken h hl (fun hc => absurd hc (by simp [hg]))

theorem sinv_processTitlePageEnd {n : Nat} {st : PState} (h : SInv n st) :
    SInv n (processTitlePageEnd st n) := by
  unfold processTitlePageEnd
  split
  · dsimp only
    split
    · exact sinv_pushLine (sinv_pushLine (sinv_pushLine h rfl) rfl) rfl
    · exact h
  · exact h

/-- `SInv` only reads `result.tokens` and `noteToken`. -/
theorem sinv_transport {n : Nat} {st st2 : PState} (h : SInv n st)
    (ht : st2.result.tokens = st.result.tokens)
    (hn : st2.noteToken = st.noteToken) : SInv n st2 :=
  ⟨by rw [ht]; exact h.1, by rw [hn]; exact h.2⟩

/-! ### Helpers that do not touch the token list -/

theorem foldl_effects {α : Type} (f : PState → α → PState)
    (hf : ∀ st a, (f st a).result.tokens = st.result.tokens ∧
      (f st a).noteToken = st.noteToken) :
    ∀ (xs : List α) (st : PState),
      (xs.foldl f st).result.tokens = st.result.tokens ∧
      (xs.foldl f st).noteToken = st.noteToken := by
  intro xs
  induction xs with
  | nil => intro st; exact ⟨rfl, rfl⟩
  | cons x tl ih =>
    intro st
    rcases hf st x with ⟨h1, h2⟩
    rcases ih (f st x) with ⟨h3, h4⟩
    exact ⟨h3.trans h1, h4.trans h2⟩

theorem pdb_effects (st : PState) (tok : Token) :
    (processDialogueBlock st tok).1.result.tokens = st.result.tokens ∧
    (processDialogueBlock st tok).1.noteToken = st.noteToken ∧
    (processDialogueBlock st tok).2.line = tok.line ∧
    (processDialogueBlock st tok).2.tokenType = tok.tokenType := by
  unfold processDialogueBlock
  dsimp only
  repeat' split
  all_goals exact ⟨rfl, rfl, rfl, rfl⟩

theorem pab_effects (st : PState) (tok : Token) :
    (processActionBlock st tok).1.result.tokens = st.result.tokens ∧
    (processActionBlock st tok).1.noteToken = st.noteToken ∧
    (processActionBlock st tok).2.line = tok.line ∧
    (processActionBlock st tok).2.tokenType = tok.tokenType := by
  unfold processActionBlock
  dsimp only
  repeat' split
  all_goals exact ⟨rfl, rfl, rfl, rfl⟩

theorem addOutlineNote_effects (st : PState) (note : Str) (line : Nat) :
    (addOutlineNote st note line).result.tokens = st.result.tokens ∧
    (addOutlineNote st note line).noteToken = st.noteToken := by
  unfold addOutlineNote
  dsimp only
  repeat' split
  all_goals exact ⟨rfl, rfl⟩

theorem processPart_effects (cfg : Conf) (lineNum : Nat) (st : PState) (part : Str) :
    (processPart cfg lineNum st part).result.tokens = st.result.tokens ∧
    (processPart cfg lineNum st part).noteToken = st.noteToken := by
  unfold processPart
  by_cases h1 : part.isEmpty = true
  · rw [if_pos h1]; exact ⟨rfl, rfl⟩
  · rw [if_neg h1]
    by_cases h2 : part = "/*".data
    · rw [if_pos h2]
      by_cases h3 : st.nestedNotes = 0
      · rw [if_pos h3]; exact ⟨rfl, rfl⟩
      · rw [if_neg h3]
        lift_lets
        extract_lets s1
        by_cases h4 : cfg.printNotes = true
        · rw [if_pos h4]
          exact ⟨(addOutlineNote_effects _ _ _).1, (addOutlineNote_effects _ _ _).2⟩
        · rw [if_neg h4]
          exact ⟨(addOutlineNote_effects _ _ _).1, (addOutlineNote_effects _ _ _).2⟩
    · rw [if_neg h2]
      by_cases h5 : part = "*/".data
      · rw [if_pos h5]
        by_cases h6 : 0 < st.nestedComments
        · rw [if_pos h6]; exact ⟨rfl, rfl⟩
        · rw [if_neg h6]
          by_cases h7 : st.nestedNotes = 0
          · rw [if_pos h7]; exact ⟨rfl, rfl⟩
          · rw [if_neg h7]
            lift_lets
            extract_lets s1
            by_cases h8 : cfg.printNotes = true
            · rw [if_pos h8]
              exact ⟨(addOutlineNote_effects _ _ _).1, (addOutlineNote_effects _ _ _).2⟩
            · rw [if_neg h8]
              exact ⟨(addOutlineNote_effects _ _ _).1, (addOutlineNote_effects _ _ _).2⟩
      · rw [if_neg h5]
        by_cases h9 : part = "[[".data ∨ part = "[[|".data
        · rw [if_pos h9]
          by_cases h10 : st.nestedComments = 0
          · rw [if_pos h10]
            lift_lets
            extract_lets s1 s2 s3
            by_cases h11 : s1.nestedNotes = 1
            · rw [if_pos h11]
              by_cases h12 : cfg.printNotes = true
              · rw [if_pos h12]
                by_cases h13 : part = "[[|".data
                · rw [if_pos h13]; exact ⟨rfl, rfl⟩
                · rw [if_neg h13]; exact ⟨rfl, rfl⟩
              · rw [if_neg h12]; exact ⟨rfl, rfl⟩
            · rw [if_neg h11]
              by_cases h12 : cfg.printNotes = true
              · rw [if_pos h12]
                exact ⟨(addOutlineNote_effects _ _ _).1, (addOutlineNote_effects _ _ _).2⟩
              · rw [if_neg h12]
                exact ⟨(addOutlineNote_effects _ _ _).1, (addOutlineNote_effects _ _ _).2⟩
          · rw [if_neg h10]; exact ⟨rfl, rfl⟩
        · rw [if_neg h9]
          by_cases h14 : part = "]]".data
          · rw [if_pos h14]
            by_cases h15 : 0 < st.nestedNotes
            · rw [if_pos h15]
              lift_lets
              extract_lets s1 s2
              by_cases h16 : s1.nestedNotes = 0
              · rw [if_pos h16]
                by_cases h17 : cfg.printNotes = true
                · rw [if_pos h17]; exact ⟨rfl, rfl⟩
                · rw [if_neg h17]; exact ⟨rfl, rfl⟩
              · rw [if_neg h16]
                by_cases h18 : cfg.printNotes = true
                · rw [if_pos h18]
                  exact ⟨(addOutlineNote_effects _ _ _).1, (addOutlineNote_effects _ _ _).2⟩
                · rw [if_neg h18]
                  exact ⟨(addOutlineNote_effects _ _ _).1, (addOutlineNote_effects _ _ _).2⟩
            · rw [if_neg h15]
              by_cases h19 : st.nestedComments = 0
              · rw [if_pos h19]; exact ⟨rfl, rfl⟩
              · rw [if_neg h19]; exact ⟨rfl, rfl⟩
          · rw [if_neg h14]
            by_cases h20 : 0 < st.nestedComments
            · rw [if_pos h20]; exact ⟨rfl, rfl⟩
            · rw [if_neg h20]
              by_cases h21 : 0 < st.nestedNotes
              · rw [if_pos h21]
                lift_lets
                extract_lets s1
                by_cases h22 : cfg.printNotes = true
                · rw [if_pos h22]
                  exact ⟨(addOutlineNote_effects _ _ _).1, (addOutlineNote_effects _ _ _).2⟩
                · rw [if_neg h22]
                  exact ⟨(addOutlineNote_effects _ _ _).1, (addOutlineNote_effects _ _ _).2⟩
              · rw [if_neg h21]; exact ⟨rfl, rfl⟩

theorem processCommentsAndNotes_effects (cfg : Conf) (parts : List Str)
    (lineNum : Nat) (st : PState) :
    (processCommentsAndNotes cfg parts lineNum st).result.tokens = st.result.tokens ∧
    (processCommentsAndNotes cfg parts lineNum st).noteToken = st.noteToken :=
  foldl_effects (processPart cfg lineNum)
    (fun st p => processPart_effects cfg lineNum st p) parts st

theorem upsl_effects (st : PState) :
    (updatePreviousSceneLength st).result.tokens = st.result.tokens ∧
    (updatePreviousSceneLength st).noteToken = st.noteToken := by
  unfold updatePreviousSceneLength
  dsimp only
  repeat' split
  all_goals exact ⟨rfl, rfl⟩

theorem titlePageUpdateText_effects (st : PState) (tokenType newText : Str) :
    (titlePageUpdateText st tokenType newText).result.tokens = st.result.tokens ∧
    (titlePageUpdateText st tokenType newText).noteToken = st.noteToken := by
  unfold titlePageUpdateText
  dsimp only
  repeat' split
  all_goals exact ⟨rfl, rfl⟩

theorem attachChildToParent_effects (st : PState) (parentId : Option Str)
    (cobj : StructToken) :
    (attachChildToParent st parentId cobj).result.tokens = st.result.tokens ∧
    (attachChildToParent st parentId cobj).noteToken = st.noteToken :=
  ⟨rfl, rfl⟩

theorem processInlineNotes_effects (st : PState) :
    (processInlineNotes st).result.tokens = st.result.tokens ∧
    (processInlineNotes st).noteToken = st.noteToken := by
  unfold processInlineNotes
  refine foldl_effects _ ?_ _ st
  intro st p
  obtain ⟨a, b⟩ := p
  dsimp only
  split
  · exact ⟨rfl, rfl⟩
  · exact ⟨rfl, rfl⟩

/-! ### Conditional and branch-level invariant lemmas -/

theorem sinv_ite {c : Prop} [Decidable c] {n : Nat} {s1 s2 : PState}
    (h1 : c → SInv n s1) (h2 : ¬ c → SInv n s2) : SInv n (if c then s1 else s2) := by
  by_cases h : c
  · rw [if_pos h]; exact h1 h
  · rw [if_neg h]; exact h2 h

theorem sinv_app {n : Nat} {st st2 : PState} (h : SInv n st)
    (e : st2.result.tokens = st.result.tokens ∧ st2.noteToken = st.noteToken) :
    SInv n st2 :=
  sinv_transport h e.1 e.2

theorem sinv_blankBranch {cfg : Conf} {i : Nat} {text : Str} {thisToken : Token}
    {e b : Bool} {st : PState} (h : SInv i st) (ht : thisToken.line = i) :
    SInv i (blankBranch cfg i text thisToken e b st) := by
  unfold blankBranch
  refine sinv_ite (fun h1 => ?_) (fun h1 => ?_)
  · lift_lets
    extract_lets sk s1
    refine sinv_ite (fun h2 => h) (fun h2 => ?_)
    exact sinv_pushLine h ht
  · refine sinv_ite (fun h2 => ?_) (fun h2 => ?_)
    · lift_lets
      extract_lets c1 c2 c3 c4 c5 c6 c7 c8
      have h3 : SInv i c3 := sinv_ite (fun hc => sinv_pushLine h rfl) (fun hc => h)
      have h5 : SInv i c5 := sinv_ite (fun hc => sinv_pushLine h3 rfl) (fun hc => h3)
      have h8 : SInv i c8 := sinv_pushLine (h5 : SInv i c7) ht
      exact h8
    · refine sinv_ite (fun h3 => h) (fun h3 => ?_)
      refine sinv_ite (fun h4 => ?_) (fun h4 => ?_)
      · refine sinv_ite (fun h5 => h) (fun h5 => ?_)
        lift_lets
        extract_lets mg
        refine sinv_ite (fun h6 => ?_) (fun h6 => h)
        exact sinv_app h ⟨rfl, rfl⟩
      · cases hL : st.result.tokens.getLast? with
        | none => exact h
        | some lastToken =>
          dsimp only
          refine sinv_ite (fun h7 => h) (fun h7 => ?_)
          refine sinv_pushLine h ?_
          rw [apply_ite Token.line, apply_ite Token.line, apply_ite Token.line]
          simp [ht]
theorem sinv_shotCutOpenClose {tx : Str} {n : Nat} {st : PState} (h : SInv n st) :
    SInv n (shotCutOpenClose tx st) := by
  unfold shotCutOpenClose
  refine sinv_ite (fun h1 => ?_) (fun h1 => ?_)
  · exact sinv_app h ⟨rfl, rfl⟩
  · refine sinv_ite (fun h2 => ?_) (fun h2 => ?_)
    · exact sinv_app h ⟨rfl, rfl⟩
    · refine sinv_ite (fun h3 => ?_) (fun h3 => ?_)
      · exact sinv_app h ⟨rfl, rfl⟩
      · refine sinv_ite (fun h4 => ?_) (fun h4 => h)
        exact sinv_app h ⟨rfl, rfl⟩

theorem sinv_transitionBranch {i : Nat} {thisToken : Token} {st : PState}
    (h : SInv i st) (ht : thisToken.line = i) :
    SInv i (transitionBranch i thisToken st) := by
  unfold transitionBranch
  refine sinv_pushLine ?_ ?_
  · exact sinv_processTitlePageEnd
      (sinv_ite (fun hc => sinv_shotCutOpenClose h) (fun hc => h))
  · exact ht

theorem sinv_pdb_push {n : Nat} {st : PState} {tok : Token} (h : SInv n st)
    (hl : tok.line = n) :
    SInv n (match processDialogueBlock st tok with
            | (st2, tok2) => pushToken st2 tok2) := by
  rcases hpd : processDialogueBlock st tok with ⟨st2, tok2⟩
  have he := pdb_effects st tok
  rw [hpd] at he
  exact sinv_pushLine (sinv_transport h he.1 he.2.1) (he.2.2.1.trans hl)

theorem sinv_pab_push {n : Nat} {st : PState} {tok : Token} (h : SInv n st)
    (hl : tok.line = n) :
    SInv n (match processActionBlock st tok with
            | (st2, tok2) => pushToken st2 tok2) := by
  rcases hpd : processActionBlock st tok with ⟨st2, tok2⟩
  have he := pab_effects st tok
  rw [hpd] at he
  exact sinv_pushLine (sinv_transport h he.1 he.2.1) (he.2.2.1.trans hl)

theorem sinv_dialogueBranch {i : Nat} {thisToken : Token} {st : PState}
    (h : SInv i st) (ht : thisToken.line = i) :
    SInv i (dialogueBranch thisToken st) := by
  unfold dialogueBranch
  refine sinv_ite (fun h1 => ?_) (fun h1 => ?_)
  · refine sinv_pushLine (sinv_ite (fun h2 => h) (fun h2 => h)) ?_
    exact ht
  · refine sinv_ite (fun h2 => ?_) (fun h2 => ?_)
    · exact sinv_pushLine h ht
    · refine sinv_ite (fun h3 => ?_) (fun h3 => ?_)
      · exact sinv_pushLine (h : SInv i _) ht
      · exact sinv_pdb_push h ht

theorem sinv_forcedActionBranch {i : Nat} {thisToken : Token} {st : PState}
    (h : SInv i st) (ht : thisToken.line = i) :
    SInv i (forcedActionBranch i thisToken st) := by
  unfold forcedActionBranch
  lift_lets
  extract_lets p1 t1
  cases hC : actionForceCaps p1.textDisplay with
  | none =>
    dsimp only
    exact sinv_pushLine (sinv_processTitlePageEnd h : SInv i p1) ht
  | some g =>
    obtain ⟨g1, g3⟩ := g
    dsimp only
    exact sinv_pab_push (sinv_processTitlePageEnd h : SInv i p1) ht
theorem sinv_actionChain {i : Nat} {thisToken : Token} {st : PState}
    (h : SInv i st) (ht : thisToken.line = i) :
    SInv i (actionChain i thisToken st) := by
  unfold actionChain
  refine sinv_ite (fun h1 => ?_) (fun h1 => ?_)
  · -- centered
    lift_lets
    extract_lets p1
    cases hC : centeredCaps p1.textDisplay with
    | none =>
      dsimp only
      exact sinv_pushLine (sinv_processTitlePageEnd h : SInv i p1) ht
    | some g =>
      obtain ⟨g1, g2, g3⟩ := g
      dsimp only
      exact sinv_pushLine (sinv_processTitlePageEnd h : SInv i p1) ht
  · refine sinv_ite (fun h2 => ?_) (fun h2 => ?_)
    · -- section
      lift_lets
      extract_lets p1
      have hp1 : SInv i p1 := sinv_processTitlePageEnd h
      cases hC : sectionCaps p1.textDisplay with
      | none =>
        dsimp only
        exact sinv_pushLine hp1 ht
      | some g =>
        obtain ⟨g1, g2, g3⟩ := g
        dsimp only
        refine sinv_pushLine ?_ ht
        refine sinv_ite (fun hd => ?_) (fun hd => ?_)
        · exact sinv_app hp1 ⟨rfl, rfl⟩
        · cases hL : latestSection _ _ with
          | none => exact sinv_app hp1 ⟨rfl, rfl⟩
          | some level =>
            exact sinv_app hp1 (attachChildToParent_effects _ _ _)
    · refine sinv_ite (fun h3 => ?_) (fun h3 => ?_)
      · -- page_break
        exact sinv_pushLine (sinv_processTitlePageEnd h) ht
      · refine sinv_ite (fun h4 => ?_) (fun h4 => ?_)
        · -- synopsis
          lift_lets
          extract_lets p1
          have hp1 : SInv i p1 := sinv_processTitlePageEnd h
          cases hC : synopsisCaps p1.textDisplay with
          | none =>
            dsimp only
            exact sinv_pushLine hp1 ht
          | some g =>
            obtain ⟨g1, g2⟩ := g
            dsimp only
            refine sinv_pushLine ?_ ht
            refine sinv_ite (fun hd => ?_) (fun hd => ?_)
            · exact sinv_app hp1 ⟨rfl, rfl⟩
            · cases hL : latestSection _ _ with
              | none => exact hp1
              | some level => exact sinv_app hp1 ⟨rfl, rfl⟩
        · refine sinv_ite (fun h5 => ?_) (fun h5 => ?_)
          · -- lyric
            lift_lets
            extract_lets p1
            cases hC : lyricCaps p1.textDisplay with
            | none =>
              dsimp only
              exact sinv_pushLine (sinv_processTitlePageEnd h : SInv i p1) ht
            | some g =>
              obtain ⟨g1, g3, g4⟩ := g
              dsimp only
              exact sinv_pushLine (sinv_processTitlePageEnd h : SInv i p1) ht
          · -- default action
            lift_lets
            extract_lets p1
            exact sinv_pab_push (sinv_processTitlePageEnd h : SInv i p1) ht


theorem sinv_optCases {α : Type} {n : Nat} {o : Option α} {A : PState}
    {B : α → PState} (hA : SInv n A) (hB : ∀ x, SInv n (B x)) :
    SInv n (match o with | none => A | some x => B x) := by
  cases o with
  | none => exact hA
  | some x => exact hB x

theorem sinv_ite_same {c : Prop} [Decidable c] {n : Nat} {s1 s2 : PState}
    (h1 : SInv n s1)
    (he : s2.result.tokens = s1.result.tokens ∧ s2.noteToken = s1.noteToken) :
    SInv n (if c then s1 else s2) :=
  sinv_ite (fun _ => h1) (fun _ => sinv_app h1 he)

theorem sinv_ite_same2 {c : Prop} [Decidable c] {n : Nat} {s1 s2 : PState}
    (h2 : SInv n s2)
    (he : s1.result.tokens = s2.result.tokens ∧ s1.noteToken = s2.noteToken) :
    SInv n (if c then s1 else s2) :=
  sinv_ite (fun _ => sinv_app h2 he) (fun _ => h2)

theorem effects_ite {c : Prop} [Decidable c] {s1 s2 : PState} {t : List Token}
    {nt : Option Token}
    (h1 : s1.result.tokens = t ∧ s1.noteToken = nt)
    (h2 : s2.result.tokens = t ∧ s2.noteToken = nt) :
    (if c then s1 else s2).result.tokens = t ∧
    (if c then s1 else s2).noteToken = nt := by
  by_cases hc : c
  · rw [if_pos hc]; exact h1
  · rw [if_neg hc]; exact h2

theorem sceneHeadingStructure_effects (cobj : StructToken) (line : Nat) (st : PState) :
    (sceneHeadingStructure cobj line st).1.result.tokens = st.result.tokens ∧
    (sceneHeadingStructure cobj line st).1.noteToken = st.noteToken := by
  unfold sceneHeadingStructure
  by_cases hd : st.currentDepth = 0
  · rw [if_pos hd]; exact ⟨rfl, rfl⟩
  · rw [if_neg hd]
    cases hL : latestSection st st.currentDepth with
    | none => exact ⟨rfl, rfl⟩
    | some level =>
      exact ⟨(attachChildToParent_effects _ _ _).1, (attachChildToParent_effects _ _ _).2⟩

theorem sinv_sceneHeadingFinish {i : Nat} {thisToken : Token} {nb textForToken : Str}
    {dup : Prop} [Decidable dup] {cobj : StructToken} {st : PState}
    (h : SInv i st) (ht : thisToken.line = i) :
    SInv i (sceneHeadingFinish thisToken nb textForToken dup cobj st) := by
  unfold sceneHeadingFinish
  lift_lets
  extract_lets s5 s6 s7 scs srcA srcB s8 smap srcC srcD s9 s10 s11
  have h5 : SInv i s5 := sinv_app h ⟨rfl, rfl⟩
  have h6 : SInv i s6 := sinv_ite_same2 h5 ⟨rfl, rfl⟩
  have h7 : SInv i s7 := sinv_app h6 (upsl_effects _)
  have h8 : SInv i s8 := sinv_ite_same h7 ⟨rfl, rfl⟩
  have h9 : SInv i s9 := sinv_app h8 ⟨rfl, rfl⟩
  have h10 : SInv i s10 := by
    unfold s10
    cases hL : parseLocationInformation s9.textValid with
    | none => exact h9
    | some location =>
      dsimp only
      refine sinv_app h9 (foldl_effects _ ?_ _ _)
      intro s sl
      dsimp only
      cases hA : assocGet s.result.properties.locations sl with
      | none => exact ⟨rfl, rfl⟩
      | some locs => exact effects_ite ⟨rfl, rfl⟩ ⟨rfl, rfl⟩
  have h11 : SInv i s11 := sinv_ite_same h10 ⟨rfl, rfl⟩
  exact sinv_pushLine h11 ht

theorem sinv_sceneHeadingTail {i : Nat} {thisToken : Token} {nb textForToken : Str}
    {st : PState} (h : SInv i st) (ht : thisToken.line = i) :
    SInv i (sceneHeadingTail thisToken nb textForToken st) := by
  unfold sceneHeadingTail
  lift_lets
  extract_lets dup s1 tA tfA tfB s2 s3 tB tC tD tE cobj
  have h1 : SInv i s1 := sinv_ite_same h ⟨rfl, rfl⟩
  have h2 : SInv i s2 := by
    unfold s2
    cases hF : s1.textDisplay.findIdx? (· = '-') with
    | none => exact h1
    | some pos => exact sinv_app h1 ⟨rfl, rfl⟩
  have h3 : SInv i s3 := sinv_app h2 ⟨rfl, rfl⟩
  have htE : tE.line = i := by
    unfold tE tD tB tA
    dsimp only
    rw [apply_ite Token.line]
    dsimp only
    rw [ite_self]
    exact ht
  have hE1 : SInv i (sceneHeadingStructure cobj tE.line s3).1 :=
    sinv_app h3 (sceneHeadingStructure_effects _ _ _)
  exact sinv_sceneHeadingFinish hE1 htE

theorem sinv_sceneHeadingBranch {cfg : Conf} {i : Nat} {text : Str}
    {thisToken : Token} {st : PState} (h : SInv i st) (ht : thisToken.line = i) :
    SInv i (sceneHeadingBranch cfg i text thisToken st) := by
  unfold sceneHeadingBranch
  lift_lets
  extract_lets p1 srcA srcB s4 r s6 s7 s8 s9 t10 nb tf tf1 s14
  have hp1 : SInv i p1 := sinv_processTitlePageEnd h
  have h4 : SInv i s4 := sinv_app hp1 ⟨rfl, rfl⟩
  have h6 : SInv i s6 := by
    unfold s6
    refine sinv_ite (fun hc => ?_) (fun hc => hp1)
    cases hH : assocGet s4.result.titlePage "hidden".data with
    | none => exact h4
    | some hiddenTokens =>
      dsimp only
      cases hFind : hiddenTokens.find? (fun t => decide (t.tokenType = "metadata".data)) with
      | none => exact h4
      | some tokm => exact h4
  have h9 : SInv i s9 := by
    unfold s9
    refine sinv_ite (fun hc => ?_) (fun hc => (h6 : SInv i s8))
    exact sinv_pushLine (h6 : SInv i s8) rfl
  have ht10 : t10.line = i := ht
  have hs14 : SInv i s14 := sinv_app h9 ⟨rfl, rfl⟩
  cases hS : sceneNumberCaps s9.textValid with
  | none =>
    dsimp only
    exact sinv_sceneHeadingTail h9 ht10
  | some g =>
    obtain ⟨g1, g2⟩ := g
    dsimp only
    cases g1 with
    | none =>
      dsimp only
      exact sinv_sceneHeadingTail hs14 ht10
    | some tab0 =>
      dsimp only
      by_cases hT : (trim tab0).isEmpty = true
      · rw [if_pos hT]
        dsimp only
        exact sinv_sceneHeadingTail hs14 ht10
      · rw [if_neg hT]
        cases hA : assocGet s14.dupScenceNuber (trim tab0) with
        | some v =>
          dsimp only
          exact sinv_sceneHeadingTail hs14 ht10
        | none =>
          dsimp only
          exact sinv_sceneHeadingTail (sinv_app h9 ⟨rfl, rfl⟩) ht10

theorem characterDual_inv {cfg : Conf} {thisToken : Token} {textValidL : Str}
    {i : Nat} {st : PState} (h : SInv i st) :
    SInv i (characterDual cfg thisToken textValidL st).1 ∧
    (characterDual cfg thisToken textValidL st).2.1.line = thisToken.line := by
  unfold characterDual
  by_cases hc : textValidL.getLast? = some '^'
  · rw [if_pos hc]
    lift_lets
    extract_lets b1 b2 b3 b4 b5 b6 b7 b8 b9 b10 b11 b12 b13 b14 b15
    have h5 : SInv i b5 := ⟨tokensInv_proj_eq (dualWalk_proj _ _ _ _ _).symm h.1, h.2⟩
    have h8 : SInv i b8 := by
      unfold b8
      refine sinv_ite (fun hm => ?_) (fun hm => h5)
      exact ⟨backWalkBegin_inv _ _ _ h5.1, h5.2⟩
    have h11 : SInv i b11 := by
      unfold b11
      refine sinv_ite (fun hl => ?_) (fun hl => ?_)
      · exact sinv_pushSynth h8 (Nat.zero_le i) (by decide)
      · exact ⟨backWalkEnd_inv _ _ _ h8.1, h8.2⟩
    have h12 : SInv i b12.1 ∧ b12.2.line = thisToken.line := by
      unfold b12
      by_cases hd : cfg.useDualDialogue = true ∧ ¬ st.forceNotDual = true
      · rw [if_pos hd]
        exact ⟨h11, rfl⟩
      · rw [if_neg hd]
        exact ⟨sinv_pushSynth h (Nat.zero_le i) (by decide), rfl⟩
    have h15 : SInv i b15 := by
      unfold b15
      cases caretNoteSplit 'இ' b14.textDisplay with
      | some g2 => exact sinv_app (h12.1 : SInv i b14) ⟨rfl, rfl⟩
      | none =>
        cases caretNoteSplit '↺' b14.textDisplay with
        | some g2 => exact sinv_app (h12.1 : SInv i b14) ⟨rfl, rfl⟩
        | none => exact sinv_app (h12.1 : SInv i b14) ⟨rfl, rfl⟩
    exact ⟨h15, h12.2⟩
  · rw [if_neg hc]
    exact ⟨sinv_pushSynth h (Nat.zero_le i) (by decide), rfl⟩

theorem sinv_characterTail {cfg : Conf} {text : Str} {thisToken : Token}
    {textValidL : Str} {i : Nat} {st : PState} (h : SInv i st)
    (ht : thisToken.line = i) :
    SInv i (characterTail cfg text thisToken textValidL st) := by
  unfold characterTail
  lift_lets
  extract_lets a1 a2 a3 a4 a5 a6 a7 a8 a9 a10 a11 a12 a13 a14 a15 a16 a17 a18 a19 a20
  have h3 : SInv i a3 := sinv_app h ⟨rfl, rfl⟩
  have h8 : SInv i a8 := by
    unfold a8
    cases assocGet a3.result.properties.characters a2 with
    | some values =>
      dsimp only
      exact sinv_ite_same h3 ⟨rfl, rfl⟩
    | none => exact sinv_app h3 ⟨rfl, rfl⟩
  have h12 : SInv i a12 := sinv_app h8 ⟨rfl, rfl⟩
  have h18 : SInv i a18 := by
    unfold a18
    refine sinv_ite (fun hcond => ?_) (fun hcond => h12)
    exact sinv_ite_same h12 ⟨rfl, rfl⟩
  have h20 : SInv i a20 := by
    unfold a20
    cases a19.lastScenStructureToken with
    | none => exact (h18 : SInv i a19)
    | some lastScen =>
      dsimp only
      refine sinv_ite (fun hf => ?_) (fun hf => (h18 : SInv i a19))
      exact sinv_app (h18 : SInv i a19) ⟨rfl, rfl⟩
  exact sinv_pushLine (sinv_app h20 ⟨rfl, rfl⟩) ht

theorem sinv_characterBranch {cfg : Conf} {i : Nat} {text : Str}
    {thisToken : Token} {st : PState} (h : SInv i st) (ht : thisToken.line = i) :
    SInv i (characterBranch cfg i text thisToken st) := by
  unfold characterBranch
  lift_lets
  extract_lets p1 srcA s2 t1 s4 tvL
  have h4 : SInv i s4 := sinv_app (sinv_processTitlePageEnd h : SInv i p1) ⟨rfl, rfl⟩
  rcases hD : characterDual cfg t1 tvL s4 with ⟨stD, tokD, tvD⟩
  have hI := @characterDual_inv cfg t1 tvL i s4 h4
  rw [hD] at hI
  dsimp only
  exact sinv_characterTail hI.1 (hI.2.trans ht)

theorem sinv_normalBranch {cfg : Conf} {i : Nat} {text : Str} {thisToken : Token}
    {bb : Bool} {st : PState} (h : SInv i st) (ht : thisToken.line = i) :
    SInv i (normalBranch cfg i text thisToken bb st) := by
  unfold normalBranch
  refine sinv_ite (fun h1 => ?_) (fun h1 => sinv_actionChain h ht)
  refine sinv_ite (fun h2 => sinv_sceneHeadingBranch h ht) (fun h2 => ?_)
  refine sinv_ite (fun h3 => sinv_actionChain h ht) (fun h3 => ?_)
  refine sinv_ite (fun h4 => sinv_transitionBranch h ht) (fun h4 => ?_)
  refine sinv_ite (fun h5 => sinv_characterBranch h ht) (fun h5 => ?_)
  refine sinv_ite (fun h6 => sinv_forcedActionBranch h ht) (fun h6 => sinv_actionChain h ht)

theorem sinv_titlePageBranch {cfg : Conf} {i : Nat} {thisToken : Token}
    {bb : Bool} {st : PState} (h : SInv i st) :
    SInv i (titlePageBranch cfg i thisToken bb st).1 := by
  unfold titlePageBranch
  lift_lets
  extract_lets c1 c2 c3 c4 c5 c6 c7 c8 c9 c10 c11 c12 c13 c14 c15
  have h1 : SInv i c1 := by
    unfold c1
    refine sinv_ite (fun hA => ?_) (fun hA => h)
    exact sinv_ite (fun hB => h) (fun hB => sinv_processTitlePageEnd h)
  have h2 : SInv i c2 := sinv_app h1 ⟨rfl, rfl⟩
  have h15 : SInv i c15 := by
    unfold c15
    refine sinv_ite (fun hf => ?_) (fun hf => ?_)
    · refine sinv_ite (fun hx => ?_) (fun hx => h1)
      exact sinv_app (h1 : SInv i c10) (titlePageUpdateText_effects _ _ _)
    · by_cases hm : cfg.mergeEmptyLines = true
      · rw [if_pos hm]
        by_cases hcb : c13 = true ∧ c1.lastIsBlankTitle = true ∧ c1.lastTitlePageToken.isSome = true
        · rw [if_pos hcb]
          dsimp only
          refine sinv_ite (fun hcond => ?_) (fun hcond => ?_)
          · exact sinv_app (sinv_app h1 ⟨rfl, rfl⟩) (titlePageUpdateText_effects _ _ _)
          · exact sinv_app h1 ⟨rfl, rfl⟩
        · rw [if_neg hcb]
          dsimp only
          refine sinv_ite (fun hcond => ?_) (fun hcond => ?_)
          · exact sinv_app (sinv_app h1 ⟨rfl, rfl⟩) (titlePageUpdateText_effects _ _ _)
          · exact sinv_app h1 ⟨rfl, rfl⟩
      · rw [if_neg hm]
        dsimp only
        refine sinv_ite (fun hcond => ?_) (fun hcond => h1)
        exact sinv_app (sinv_app h1 ⟨rfl, rfl⟩) (titlePageUpdateText_effects _ _ _)
  by_cases hm : titlePageIsMatch c1.textValid = true
  · rw [if_pos hm]
    cases hF : fontMtCaps c2.textValid with
    | some g2 =>
      dsimp only
      cases hG : getTitlePagePosition c4.tokenType with
      | some posn =>
        dsimp only
        refine sinv_ite (fun hk => ?_) (fun hk => ?_)
        · exact sinv_app h2 ⟨rfl, rfl⟩
        · exact sinv_app h2 ⟨rfl, rfl⟩
      | none =>
        dsimp only
        refine sinv_ite (fun hk => ?_) (fun hk => ?_)
        · exact sinv_app h2 ⟨rfl, rfl⟩
        · exact sinv_app h2 ⟨rfl, rfl⟩
    | none =>
      dsimp only
      cases hT : titleMtCaps c5.textDisplay with
      | some g3 =>
        dsimp only
        cases hG : getTitlePagePosition c4.tokenType with
        | some posn =>
          dsimp only
          refine sinv_ite (fun hk => ?_) (fun hk => ?_)
          · exact sinv_app h2 ⟨rfl, rfl⟩
          · exact sinv_app h2 ⟨rfl, rfl⟩
        | none =>
          dsimp only
          refine sinv_ite (fun hk => ?_) (fun hk => ?_)
          · exact sinv_app h2 ⟨rfl, rfl⟩
          · exact sinv_app h2 ⟨rfl, rfl⟩
      | none =>
        dsimp only
        cases hG : getTitlePagePosition c4.tokenType with
        | some posn =>
          dsimp only
          refine sinv_ite (fun hk => ?_) (fun hk => ?_)
          · exact sinv_app h2 ⟨rfl, rfl⟩
          · exact sinv_app h2 ⟨rfl, rfl⟩
        | none =>
          dsimp only
          refine sinv_ite (fun hk => ?_) (fun hk => ?_)
          · exact sinv_app h2 ⟨rfl, rfl⟩
          · exact sinv_app h2 ⟨rfl, rfl⟩
  · rw [if_neg hm]
    by_cases hs : c1.result.state = "title_page".data
    · rw [if_pos hs]
      exact h15
    · rw [if_neg hs]
      exact h1

theorem sinv_fallThroughStep {i : Nat} {thisToken : Token} {st : PState}
    (h : SInv i st) (ht : thisToken.line = i) :
    SInv i (fallThroughStep i thisToken st) := by
  unfold fallThroughStep
  by_cases h1 : thisToken.tokenType.isEmpty = true
  · rw [if_pos h1]
    by_cases h2 : st.result.state = "title_page".data
    · rw [if_pos h2]
      dsimp only
      exact h
    · rw [if_neg h2]
      lift_lets
      extract_lets p1 tA tB
      rcases hP : processActionBlock p1 tB with ⟨stP, tokP⟩
      have he := pab_effects p1 tB
      rw [hP] at he
      have hS : SInv i stP :=
        sinv_transport (sinv_processTitlePageEnd h : SInv i p1) he.1 he.2.1
      have htok : tokP.line = i := he.2.2.1.trans ht
      dsimp only
      refine sinv_ite (fun hig => ?_) (fun hig => ?_)
      · exact sinv_app hS ⟨rfl, rfl⟩
      · cases hN : stP.noteToken with
        | some nt =>
          rw [hS.2] at hN
          exact Option.noConfusion hN
        | none =>
          dsimp only
          refine sinv_ite (fun hig2 => ?_) (fun hig2 => ?_)
          · exact sinv_app hS ⟨rfl, hN.symm⟩
          · refine sinv_pushLine (sinv_app hS ⟨rfl, hN.symm⟩) ?_
            dsimp only
            rw [apply_ite Token.line]
            dsimp only
            rw [ite_self]
            rw [apply_ite Token.line]
            dsimp only
            rw [ite_self]
            exact htok
  · rw [if_neg h1]
    dsimp only
    refine sinv_ite (fun hig => ?_) (fun hig => ?_)
    · exact sinv_app h ⟨rfl, rfl⟩
    · cases hN : st.noteToken with
      | some nt =>
        rw [h.2] at hN
        exact Option.noConfusion hN
      | none =>
        dsimp only
        refine sinv_ite (fun hig2 => ?_) (fun hig2 => ?_)
        · exact sinv_app h ⟨rfl, hN.symm⟩
        · refine sinv_pushLine (sinv_app h ⟨rfl, hN.symm⟩) ?_
          dsimp only
          rw [apply_ite Token.line]
          dsimp only
          rw [ite_self]
          rw [apply_ite Token.line]
          dsimp only
          rw [ite_self]
          exact ht

theorem sinv_afterPre {cfg : Conf} {i : Nat} {text : Str} {e b bb : Bool}
    {st : PState} (h : SInv i st) :
    SInv i (afterPre cfg i text e b bb st) := by
  unfold afterPre
  lift_lets
  extract_lets srcT tok srcR s1
  have htok : tok.line = i := rfl
  have h1s : SInv i s1 := by
    unfold s1
    refine sinv_ite (fun hc => ?_) (fun hc => h)
    exact sinv_app h ⟨rfl, rfl⟩
  refine sinv_ite (fun h1 => ?_) (fun h1 => ?_)
  · exact sinv_blankBranch h htok
  · by_cases h2 : s1.result.state = "title_page".data
    · rw [if_pos h2]
      rcases hT : titlePageBranch cfg i tok bb s1 with ⟨s2, b2⟩
      have hI := @sinv_titlePageBranch cfg i tok bb s1 h1s
      rw [hT] at hI
      cases b2 with
      | true =>
        dsimp only
        exact hI
      | false =>
        dsimp only
        refine sinv_ite (fun h3 => sinv_dialogueBranch hI htok) (fun h3 => ?_)
        refine sinv_ite (fun h4 => sinv_normalBranch hI htok)
          (fun h4 => sinv_fallThroughStep hI htok)
    · rw [if_neg h2]
      refine sinv_ite (fun h3 => sinv_dialogueBranch h1s htok) (fun h3 => ?_)
      refine sinv_ite (fun h4 => sinv_normalBranch h1s htok)
        (fun h4 => sinv_fallThroughStep h1s htok)

theorem sinv_processLine {cfg : Conf} {i : Nat} {text : Str} {st : PState}
    (h : SInv i st) : SInv i (processLine cfg i text st) := by
  unfold processLine
  lift_lets
  extract_lets s1 mb s2 parts s3
  have h2 : SInv i s2 := sinv_app h ⟨rfl, rfl⟩
  have h3 : SInv i s3 := by
    unfold s3
    exact sinv_transport (sinv_app h ⟨rfl, rfl⟩ : SInv i s1)
      (processCommentsAndNotes_effects _ _ _ _).1
      (processCommentsAndNotes_effects _ _ _ _).2
  refine sinv_ite (fun hb => ?_) (fun hb => ?_)
  · refine sinv_ite (fun hc => ?_) (fun hc => ?_)
    · refine sinv_ite (fun hd => ?_) (fun hd => h2)
      exact sinv_afterPre h2
    · refine sinv_ite (fun hd => ?_) (fun hd => ?_)
      · exact sinv_afterPre h2
      · refine sinv_ite (fun he => ?_) (fun he => ?_)
        · exact sinv_afterPre h2
        · exact sinv_afterPre (sinv_app h2 ⟨rfl, rfl⟩)
  · refine sinv_ite (fun hc => ?_) (fun hc => ?_)
    · refine sinv_ite (fun hd => h3) (fun hd => ?_)
      exact sinv_afterPre h3
    · refine sinv_ite (fun hd => ?_) (fun hd => ?_)
      · exact sinv_afterPre (sinv_app h3 ⟨rfl, rfl⟩)
      · exact sinv_afterPre h3

theorem sinv_parseRun (cfg : Conf) : ∀ (lines : List Str) (i : Nat) (st : PState),
    SInv i st → ∃ n, SInv n (parseRun cfg i lines st) := by
  intro lines
  induction lines with
  | nil => intro i st h; exact ⟨i, h⟩
  | cons l tl ih =>
    intro i st h
    exact ih (i + 1) _ (sinv_mono (sinv_processLine h) (Nat.le_succ i))

theorem actionCharsStep_proj (l : Nat)
    (acc : List (Str × List Nat) × Token × List (Str × Nat × Nat)) (k : Str) :
    projTok (actionCharsStep l acc k).2.1 = projTok acc.2.1 := by
  unfold actionCharsStep
  obtain ⟨c, t, m⟩ := acc
  dsimp only
  cases actionCharScan t.text k m (t.text.length + 1) 0 with
  | none => rfl
  | some pr =>
    obtain ⟨a, b⟩ := pr
    rfl

theorem actionCharsFold_proj (l : Nat) : ∀ (keys : List Str)
    (acc : List (Str × List Nat) × Token × List (Str × Nat × Nat)),
    projTok (keys.foldl (actionCharsStep l) acc).2.1 = projTok acc.2.1 := by
  intro keys
  induction keys with
  | nil => intro acc; rfl
  | cons k tl ih =>
    intro acc
    rw [List.foldl_cons]
    exact (ih _).trans (actionCharsStep_proj l acc k)

theorem actionCharsToken_proj (chars : List (Str × List Nat)) (l : Nat) (tok : Token) :
    projTok (actionCharsToken chars l tok).2 = projTok tok := by
  unfold actionCharsToken
  by_cases hc : tok.text.isEmpty = true
  · rw [if_pos hc]
  · rw [if_neg hc]
    exact actionCharsFold_proj l _ _

theorem actionCharsPassStep_proj (acc : List Token × List (Str × List Nat) × Int)
    (token : Token) :
    (actionCharsPassStep acc token).1.map projTok =
      acc.1.map projTok ++ [projTok token] := by
  unfold actionCharsPassStep
  obtain ⟨toks, chars, idx⟩ := acc
  dsimp only
  by_cases h1 : token.tokenType = "scene_heading".data
  · rw [if_pos h1]
    simp
  · rw [if_neg h1]
    by_cases h2 : 0 ≤ idx ∧ token.tokenType = "action".data
    · rw [if_pos h2]
      rcases hA : actionCharsToken chars idx.toNat token with ⟨c2, t2⟩
      have hp := actionCharsToken_proj chars idx.toNat token
      rw [hA] at hp
      dsimp only
      dsimp only at hp
      simp [hp]
    · rw [if_neg h2]
      simp

theorem actionCharsPassFold_proj : ∀ (toks : List Token) (acc0 : List Token)
    (chars : List (Str × List Nat)) (idx : Int),
    ((toks.foldl actionCharsPassStep (acc0, chars, idx)).1).map projTok =
      acc0.map projTok ++ toks.map projTok := by
  intro toks
  induction toks with
  | nil => intro acc0 chars idx; simp
  | cons t tl ih =>
    intro acc0 chars idx
    rw [List.foldl_cons]
    rcases hS : actionCharsPassStep (acc0, chars, idx) t with ⟨a1, c1, i1⟩
    have hp := actionCharsPassStep_proj (acc0, chars, idx) t
    rw [hS] at hp
    dsimp only at hp
    rw [ih a1 c1 i1, hp]
    simp

theorem actionCharactersPass_proj (st : PState) :
    ((actionCharactersPass st).result.tokens).map projTok =
      st.result.tokens.map projTok ∧
    (actionCharactersPass st).noteToken = st.noteToken := by
  unfold actionCharactersPass
  rcases hF : st.result.tokens.foldl actionCharsPassStep
      ([], st.result.properties.characters, (-1 : Int)) with ⟨tk, ch, ix⟩
  have hp := actionCharsPassFold_proj st.result.tokens [] st.result.properties.characters (-1)
  rw [hF] at hp
  dsimp only at hp
  simp only [List.map_nil, List.nil_append] at hp
  exact ⟨hp, rfl⟩

theorem sinv_actionCharactersPass {n : Nat} {st : PState} (h : SInv n st) :
    SInv n (actionCharactersPass st) :=
  ⟨tokensInv_proj_eq (actionCharactersPass_proj st).1.symm h.1,
   ((actionCharactersPass_proj st).2).trans h.2⟩

theorem characterSceneNumberPass_effects (st : PState) :
    (characterSceneNumberPass st).result.tokens = st.result.tokens ∧
    (characterSceneNumberPass st).noteToken = st.noteToken :=
  ⟨rfl, rfl⟩

theorem sinv_parseFinish {n : Nat} {gh : Bool} {st : PState} (h : SInv n st) :
    SInv n (parseFinish gh st) := by
  unfold parseFinish
  lift_lets
  extract_lets f1 f2 f3 f4 f5 f6 f7 f8 f9 f10 f11 f12 f13
  have h1 : SInv n f1 := by
    unfold f1
    refine sinv_ite (fun hc => ?_) (fun hc => h)
    exact sinv_pushSynth h (Nat.zero_le n) (by decide)
  have h2 : SInv n f2 := by
    unfold f2
    refine sinv_ite (fun hc => ?_) (fun hc => h1)
    exact sinv_pushSynth h1 (Nat.zero_le n) (by decide)
  have h4 : SInv n f4 := by
    unfold f4
    refine sinv_ite (fun hc => ?_) (fun hc => h2)
    refine sinv_transport h2 ?_ ?_
    · exact (processInlineNotes_effects f2).1
    · exact (processInlineNotes_effects f2).2
  have h5 : SInv n f5 := sinv_transport h4 (upsl_effects f4).1 (upsl_effects f4).2
  have h9 : SInv n f9 := sinv_app h5 ⟨rfl, rfl⟩
  have h10 : SInv n f10 := sinv_actionCharactersPass h9
  have h11 : SInv n f11 := sinv_app h10 (characterSceneNumberPass_effects f10)
  refine sinv_ite (fun hg => ?_) (fun hg => h11)
  exact sinv_app h11 ⟨rfl, rfl⟩

/-! ## Claim theorems -/

/-- C1: for the input `INT. A - DAY` / blank / `JOHN` / `Hello` / blank /
`JANE^` / `Hi` with `use_dual_dialogue` enabled, `parse` rewrites the first
`dialogue_begin` in place into `dual_dialogue_begin` (position 2, where the
`dialogue_begin` had been pushed), tags the John character/dialogue tokens
`dual=left` and the Jane ones `dual=right`, and the final stream carries
exactly one `dual_dialogue_begin`/`dual_dialogue_end` pair enclosing both
groups. -/
theorem c1_dual_dialogue_retrofit :
    c1Run.2.tokens.map (fun t => (t.tokenType, t.dual)) =
      [("scene_heading".data, none), ("separator".data, none),
       ("dual_dialogue_begin".data, none),
       ("character".data, some "left".data), ("dialogue".data, some "left".data),
       ("character".data, some "right".data), ("dialogue".data, some "right".data),
       ("dual_dialogue_end".data, none)] ∧
    ((c1Run.2.tokens.filter (fun t => t.tokenType = "dual_dialogue_begin".data)).length = 1 ∧
     (c1Run.2.tokens.filter (fun t => t.tokenType = "dual_dialogue_end".data)).length = 1) := by
  decide

/-- C2 counterexample: parsing `.INT. HOUSE - DAY #1#` does **not** derive a
`Location` named `HOUSE` with `interior = true`: the scene-heading regex's
first alternative `[.]` captures only the forced-heading dot as the int/ext
group, so the `INT.` text stays inside the location name and no interior
flag is derived. -/
theorem c2_counterexample :
    ¬ (∃ p ∈ c2Run.2.properties.locations, ∃ l ∈ p.2,
        l.name = "HOUSE".data ∧ l.interior = true) := by
  decide

/-- C2 amended: parsing `.INT. HOUSE - DAY #1#` produces one scene-heading
token with resolved number `"1"`, and the derived `Location` record has
name `"INT. HOUSE"`, `interior = false`, `exterior = false` (the forced dot
is what the int/ext group captures, so `INT.` stays in the name and neither
flag is set), with time of day `DAY`. -/
theorem c2_amended :
    c2Run.2.tokens.map (fun t => (t.tokenType, t.number)) =
      [("scene_heading".data, some "1".data)] ∧
    c2Run.2.properties.locations =
      [("INT. HOUSE".data,
        [{ name := "INT. HOUSE".data, interior := false, exterior := false,
           timeOfDay := "DAY".data, sceneNumber := "1".data, line := 0,
           startPlaySec := Frac.zero }])] := by
  decide

/-- C3 counterexample: for the two-line document `JOHN` / `Hi` the returned
token list is **not** ordered by non-decreasing source line: the synthetic
`dialogue_end` pushed at end-of-input gets `line = 0`
(`create_token(None, None, None, None, …)`) and follows the `Hi` dialogue
token with `line = 1`. -/
theorem c3_counterexample :
    ¬ List.Pairwise (fun a b => a.line ≤ b.line) c3Run.2.tokens := by
  decide

/-- C3 amended: for every starting state, input document and configuration,
the token list returned by `parse` is ordered by non-decreasing source line
number once the four synthetic begin/end token types (which `parse` creates
via `create_token(None, None, None, None, …)` with `line = 0`) are set
aside: the subsequence of all other tokens satisfies
`tokens[j].line ≤ tokens[k].line` for `j < k`. -/
theorem c3_amended_token_order (st : PState) (script : Str) (cfg : Conf) (gh : Bool) :
    List.Pairwise (fun a b => a.line ≤ b.line)
      (((parse st script cfg gh).2.tokens).filter goodTok) := by
  unfold parse
  lift_lets
  extract_lets s0 srcA s1 s2 linesv srcB s3 s4 s5
  by_cases he : script.isEmpty = true
  · rw [if_pos he]
    exact List.Pairwise.nil
  · rw [if_neg he]
    have h4 : SInv 0 s4 :=
      ⟨⟨fun t ht => absurd ht (List.not_mem_nil t), List.Pairwise.nil⟩, rfl⟩
    obtain ⟨n, hn⟩ := sinv_parseRun cfg linesv 0 s4 h4
    have hF : SInv n s5 := sinv_parseFinish hn
    exact hF.1.2

/-- C4: the shot-cut feature is dead code, demonstrated on a document with
`> {+A+} ↓`, three subsequent scenes of one action line each and
`> {-B-} ↑`: the opening test `captures.len() > 2` can never hold for the
one-group transition regex, so no bracket opens, `shot_cut_strct_tokens`
stays empty, and the final pass redistributes nothing — every scene
structure node keeps duration 0 instead of receiving the even share the
claim describes. -/
theorem c4_shot_cut_never_opens :
    ¬ (transitionRegexGroupCount > 2) ∧
    c4Run.1.shotCut = 0 ∧
    c4Run.1.shotCutStrctTokens = [] ∧
    ((c4Run.2.tokens.filter (fun t => t.tokenType = "transition".data)).length = 2) ∧
    c4Run.2.properties.structureL.map (fun n => (n.isscene, n.durationSec)) =
      [(true, Frac.zero), (true, Frac.zero), (true, Frac.zero), (true, Frac.zero)] := by
  refine ⟨by decide, by decide, by rfl, by decide, by decide⟩

/-- C5: two scene headings both annotated `#1#` (no `${…}` alias): the
second token's number carries the visible duplicate marker (`↑1`, differing
from the raw annotation text `1`), the set of seen scene numbers holds the
single entry `1` (no collision), and the sequential scene counter advanced
only for the first heading (final value 2). -/
theorem c5_duplicate_scene_number :
    c5Run.2.tokens.map (fun t => (t.tokenType, t.number)) =
      [("scene_heading".data, some "1".data), ("separator".data, none),
       ("scene_heading".data, some ('↑' :: "1".data))] ∧
    c5Run.1.scenceNumbers = ["1".data] ∧
    c5Run.1.sceneNumber = 2 := by
  decide

/-- C6: the rendered sentinel stream `↬↭bold text↭↫rest` does **not**
produce a bold middle span: the style-char table of
`fountain_constants.rs` is encoding-corrupted (every sentinel is a 2–4
character mojibake string such as `â†¬`), so none of the genuine sentinel
characters is in the special set, the whole input survives as one plain
element, no toggle or stash/pop branch of `text2` ever fires, and a single
non-bold run is emitted with nothing saved in the global stash slot. -/
theorem c6_sentinel_dispatch_dead :
    c6Run.2.1 = [c6PlainRun] ∧
    c6PlainRun.kind = RunKind.normal ∧
    c6Run.1.formatState.bold = false ∧
    c6Run.1.stashStyleGlobalColumn = none ∧
    "↬↭↫".data.all (fun c => ¬ hasChar chAll c) = true := by
  refine ⟨?_, by decide, ?_, ?_, by decide⟩ <;> decide

/-- C7: no duration accumulates before the first scene heading: while
`properties.scenes` is still empty, `process_dialogue_block` and
`process_action_block` (through which every dialogue / action duration
flows) return the token and the whole parser state unchanged — no `time`
value, no play-time advance, no action/dialogue length growth. -/
theorem c7_no_duration_before_first_scene (st : PState) (tok : Token)
    (h : st.result.properties.scenes = []) :
    processDialogueBlock st tok = (st, tok) ∧ processActionBlock st tok = (st, tok) := by
  unfold processDialogueBlock processActionBlock
  simp [h]

/-- witness for C7 at the fresh parser state and the empty token. -/
theorem c7_no_duration_before_first_scene_witness :
    processDialogueBlock PState.new Token.empty = (PState.new, Token.empty) ∧
    processActionBlock PState.new Token.empty = (PState.new, Token.empty) :=
  c7_no_duration_before_first_scene PState.new Token.empty rfl

/-- C8: `parse` applied to the empty string returns, for every prior state,
configuration and html flag, the pristine `ParseOutput::new()` — in
particular an empty token list — via the early return; the embedding of
`parse` is moreover a total function, matching "never raises, always a
complete best-effort stream". -/
theorem c8_empty_input (st : PState) (cfg : Conf) (gh : Bool) :
    (parse st [] cfg gh).2.tokens = [] ∧ (parse st [] cfg gh).2 = ParseOutput.new := by
  constructor <;> rfl

/-- C9: `parse` does not start from a clean internal state: `take_count`
(and `current_depth`) are never re-initialised, so parsing `JOHN`/`Hi` a
second time on the instance that already parsed it yields a character
token with `take_number = 2` where a fresh parser yields `1`; the two
`ParseOutput`s differ. -/
theorem c9_state_leaks_across_parses :
    c9RunB.2.tokens.map (·.takeNumber) = [none, some 2, none, none] ∧
    c9RunA.2.tokens.map (·.takeNumber) = [none, some 1, none, none] ∧
    c9RunA.1.takeCount = 2 ∧
    c9RunB.1.takeCount = 3 ∧
    c9RunB.2 ≠ c9RunA.2 := by
  refine ⟨by decide, by decide, by decide, by decide, ?_⟩
  intro h
  have h2 := congrArg (fun o => o.tokens.map Token.takeNumber) h
  exact absurd h2 (by decide)

/-- C10: for the empty input the early return happens before the
configuration's duration parameters are copied into the result, so for
**every** configuration the returned `ParseOutput` carries the built-in
defaults `0.3 / 0.3 / 0.75 / 0.4` rather than the configured values. -/
theorem c10_empty_input_keeps_default_durations (st : PState) (cfg : Conf) (gh : Bool) :
    (parse st [] cfg gh).2.dialSecPerChar = frac03 ∧
    (parse st [] cfg gh).2.dialSecPerPuncShort = frac03 ∧
    (parse st [] cfg gh).2.dialSecPerPuncLong = frac075 ∧
    (parse st [] cfg gh).2.actionSecPerChar = frac04 := by
  refine ⟨rfl, rfl, rfl, rfl⟩

end BF
